import Mathlib

/-!
# Blue Future water monitor (`arduino.cpp`)

A shallow embedding of the Arduino sketch: the global variables of the sketch
together with the hardware it drives (EEPROM bytes, digital output pins, the
tone generator, the serial port and the LCD) form one `State`; `setup` and
`loop` are functions on that state.  `float` values are modelled by exact
rationals, so every statement below is a statement in exact arithmetic.
The two `analogRead` results of a cycle are the inputs of `loop`.
`delay` only lets time pass and has no counterpart here.
-/

namespace BlueFuture

/-! ## Constants of the sketch -/

/-- Pins of the four light-level LEDs (`ledPins[]`). -/
def ledPins : List Nat := [6, 7, 8, 9]

/-- Pin of the red anomaly LED. -/
def ledRedPin : Nat := 10

/-- Pin of the buzzer. -/
def buzzerPin : Nat := 11

/-- Window length of the moving average. -/
def numReadings : Nat := 30

/-- Number of EEPROM bytes the sketch uses. -/
def eepromSize : Nat := 900

/-- Width in bytes of a `float` on the target (`sizeof(float)`). -/
def sizeofFloat : Nat := 4

/-- Custom LCD glyph `bola` (rows of five pixels). -/
def bola : List Nat := [0b00100, 0b01010, 0b00100, 0, 0, 0, 0, 0]

/-- Custom LCD glyph `onda`. -/
def onda : List Nat :=
  [0b00000, 0b00001, 0b00010, 0b00110, 0b01110, 0b11110, 0b11111, 0b11111]

/-! ## Hardware model -/

/-- One byte of the EEPROM.  The sketch only ever stores `float` objects, so a
byte is either whatever was there before the program ran, or byte number
`part` of the object representation of the float `value`. -/
inductive EepromByte where
  | old (content : Nat)
  | floatByte (value : ℚ) (part : Nat)
  deriving DecidableEq

/-- What the sketch sends over the serial port. -/
inductive SerialItem where
  | text (s : String)
  | number (v : ℚ)
  | newline
  deriving DecidableEq

/-- Commands sent to the LCD driver. -/
inductive LcdOp where
  | init
  | backlight
  | createChar (slot : Nat) (glyph : List Nat)
  | setCursor (col row : Nat)
  | print (s : String)
  | printFloat (v : ℚ)
  | write (b : Nat)
  | clear
  deriving DecidableEq

/-- The two raw `analogRead` results of one cycle: `temp` is what
`analogRead(sensorTempPin)` returns, `light` what `analogRead(sensorLDRPin)`
returns. -/
structure Analog where
  temp : Int
  light : Int
  deriving DecidableEq

/-- Global variables of the sketch and the state of the attached hardware. -/
structure State where
  tempReadings : List ℚ
  lightReadings : List ℚ
  readIndex : Nat
  totalTemp : ℚ
  totalLight : ℚ
  averageTemp : ℚ
  averageLight : ℚ
  eepromIndex : Nat
  /-- EEPROM contents, by byte address. -/
  eeprom : Nat → EepromByte
  /-- Level of each digital pin (`true` is `HIGH`). -/
  digital : Nat → Bool
  /-- Frequency of the tone currently played on each pin, if any. -/
  toneOn : Nat → Option Nat
  /-- Pins configured as `OUTPUT`. -/
  outputMode : Nat → Bool
  /-- Baud rate once `Serial.begin` has run. -/
  serialBaud : Option Nat
  /-- Everything printed to the serial port so far. -/
  serial : List SerialItem
  /-- Everything sent to the LCD so far. -/
  lcd : List LcdOp

/-! ## Hardware primitives -/

/-- `digitalWrite(pin, level)`. -/
def digitalWrite (s : State) (pin : Nat) (level : Bool) : State :=
  { s with digital := fun p => if p = pin then level else s.digital p }

/-- `pinMode(pin, OUTPUT)`. -/
def pinModeOutput (s : State) (pin : Nat) : State :=
  { s with outputMode := fun p => if p = pin then true else s.outputMode p }

/-- `tone(pin, frequency)`. -/
def tone (s : State) (pin freq : Nat) : State :=
  { s with toneOn := fun p => if p = pin then some freq else s.toneOn p }

/-- `noTone(pin)`. -/
def noTone (s : State) (pin : Nat) : State :=
  { s with toneOn := fun p => if p = pin then none else s.toneOn p }

/-- `EEPROM.put(addr, v)` for a `float` `v`: the `sizeofFloat` bytes starting
at `addr` receive the object representation of `v`. -/
def eepromPut (s : State) (addr : Nat) (v : ℚ) : State :=
  { s with eeprom := fun a =>
      if addr ≤ a ∧ a < addr + sizeofFloat then EepromByte.floatByte v (a - addr)
      else s.eeprom a }

/-- Appends commands to the LCD log. -/
def lcdDo (s : State) (ops : List LcdOp) : State :=
  { s with lcd := s.lcd ++ ops }

/-- Appends items to the serial log. -/
def serialDo (s : State) (items : List SerialItem) : State :=
  { s with serial := s.serial ++ items }

/-! ## `setup` -/

/-- State at power-on: the globals carry their initialisers (arrays with
static storage are zero-filled), nothing has been sent to any device, and the
EEPROM holds `rom`, whatever earlier runs left there. -/
def powerOn (rom : Nat → EepromByte) : State :=
  { tempReadings := List.replicate numReadings 0
    lightReadings := List.replicate numReadings 0
    readIndex := 0
    totalTemp := 0
    totalLight := 0
    averageTemp := 0
    averageLight := 0
    eepromIndex := 0
    eeprom := rom
    digital := fun _ => false
    toneOn := fun _ => none
    outputMode := fun _ => false
    serialBaud := none
    serial := []
    lcd := [] }

/-- Body of the zero-fill `for` loop of `setup()`. -/
def clearReading (s : State) (thisReading : Nat) : State :=
  { s with tempReadings := s.tempReadings.set thisReading 0
           lightReadings := s.lightReadings.set thisReading 0 }

/-- The function `setup()`. -/
def setup (s : State) : State :=
  let s := lcdDo s [LcdOp.init, LcdOp.backlight]
  let s := lcdDo s [LcdOp.createChar 0 bola, LcdOp.createChar 1 onda]
  let s := lcdDo s [LcdOp.setCursor 0 0, LcdOp.print "  Blue  Future", LcdOp.setCursor 0 1]
  let s := lcdDo s (List.replicate 16 (LcdOp.write 1))
  let s := (List.range 4).foldl (fun st i => pinModeOutput st (ledPins.getD i 0)) s
  let s := pinModeOutput s ledRedPin
  let s := pinModeOutput s buzzerPin
  let s := { s with serialBaud := some 9600 }
  let s := (List.range numReadings).foldl clearReading s
  lcdDo s [LcdOp.clear]

/-- The state in which the first `loop()` starts. -/
def startup (rom : Nat → EepromByte) : State := setup (powerOn rom)

/-! ## Sensor conversions -/

/-- The function `readTemperature()`, given the result of `analogRead`. -/
def readTemperature (analogValue : Int) : ℚ :=
  let voltage : ℚ := (analogValue : ℚ) * (5.0 / 1023.0)
  let temperatureC : ℚ := (voltage - 0.5) * 100.0
  temperatureC

/-- The function `readLight()`, given the result of `analogRead`. -/
def readLight (analogValue : Int) : ℚ :=
  let lightPercent : ℚ := ((analogValue : ℚ) / 800.0) * 100.0
  lightPercent

/-! ## `loop` -/

/-- First block of `loop()`: replace the oldest reading and recompute the
moving averages. -/
def pushReadings (s : State) (a : Analog) : State :=
  let s := { s with totalTemp := s.totalTemp - s.tempReadings.getD s.readIndex 0
                    totalLight := s.totalLight - s.lightReadings.getD s.readIndex 0 }
  let s := { s with tempReadings := s.tempReadings.set s.readIndex (readTemperature a.temp) }
  let s := { s with lightReadings := s.lightReadings.set s.readIndex (readLight a.light) }
  let s := { s with totalTemp := s.totalTemp + s.tempReadings.getD s.readIndex 0
                    totalLight := s.totalLight + s.lightReadings.getD s.readIndex 0 }
  let s := { s with readIndex := (s.readIndex + 1) % numReadings }
  { s with averageTemp := s.totalTemp / (numReadings : ℚ)
           averageLight := s.totalLight / (numReadings : ℚ) }

/-- Second block of `loop()`: show both averages on the LCD. -/
def showReadings (s : State) : State :=
  lcdDo s
    [LcdOp.setCursor 0 0, LcdOp.print "Temp: ", LcdOp.printFloat s.averageTemp,
     LcdOp.setCursor 10 0, LcdOp.write 0, LcdOp.print "C",
     LcdOp.setCursor 0 1, LcdOp.print "Luz: ", LcdOp.printFloat s.averageLight,
     LcdOp.print "%"]

/-- Body of the LED `for` loop for one value of `i`. -/
def lightLed (s : State) (i : Nat) : State :=
  if s.averageLight > ((i * 25 : Nat) : ℚ) then
    digitalWrite s (ledPins.getD i 0) true
  else
    digitalWrite s (ledPins.getD i 0) false

/-- Third block of `loop()`: the light-level LEDs. -/
def driveLeds (s : State) : State :=
  (List.range 4).foldl lightLed s

/-- Fourth block of `loop()`: the anomaly check with alarm, EEPROM record and
serial message. -/
def checkAnomaly (s : State) : State :=
  if s.averageTemp > 23 then
    let s := digitalWrite s ledRedPin true
    let s := tone s buzzerPin 1000
    let s := eepromPut s s.eepromIndex s.averageTemp
    let s := eepromPut s (s.eepromIndex + sizeofFloat) s.averageLight
    let s := { s with eepromIndex := s.eepromIndex + sizeofFloat * 2 }
    let s := if s.eepromIndex ≥ eepromSize - sizeofFloat * 2 then
        { s with eepromIndex := 0 } else s
    serialDo s
      [SerialItem.text "Anomalia detectada na agua! Temp: ", SerialItem.number s.averageTemp,
       SerialItem.text " °C, Luminosidade: ", SerialItem.number s.averageLight,
       SerialItem.text "%", SerialItem.newline]
  else
    let s := digitalWrite s ledRedPin false
    noTone s buzzerPin

/-- The function `loop()`: one monitoring cycle on the readings `a`. -/
def loop (s : State) (a : Analog) : State :=
  checkAnomaly (driveLeds (showReadings (pushReadings s a)))

/-- Runs `loop()` once for every element of `inputs`, in order. -/
def run (s : State) (inputs : List Analog) : State :=
  inputs.foldl loop s

/-! ## Vocabulary for the statements -/

/-- Temperature samples read during a run, oldest first. -/
def tempSamples (inputs : List Analog) : List ℚ :=
  inputs.map (fun a => readTemperature a.temp)

/-- Light samples read during a run, oldest first. -/
def lightSamples (inputs : List Analog) : List ℚ :=
  inputs.map (fun a => readLight a.light)

/-- The last `numReadings` elements of the sample stream `xs` preceded by
`numReadings` zeros (the zero-filled buffer), oldest first. -/
def window (xs : List ℚ) : List ℚ :=
  (List.replicate numReadings 0 ++ xs).drop xs.length

/-- The records appended to the EEPROM log during a run from `s`, oldest
first: one pair (average temperature, average light) for every cycle whose
average temperature is above 23. -/
def records (s : State) : List Analog → List (ℚ × ℚ)
  | [] => []
  | a :: rest =>
    (if (loop s a).averageTemp > 23 then [((loop s a).averageTemp, (loop s a).averageLight)]
      else []) ++ records (loop s a) rest

/-- The `sizeofFloat` bytes of `rom` starting at `addr` are the object
representation of the float `v`. -/
def holdsFloat (rom : Nat → EepromByte) (addr : Nat) (v : ℚ) : Prop :=
  ∀ j, j < sizeofFloat → rom (addr + j) = EepromByte.floatByte v j

/-- Record slot `slot` of `rom` (bytes `8 * slot` to `8 * slot + 7`) holds the
record `r`: temperature first, light right after it. -/
def holdsRecord (rom : Nat → EepromByte) (slot : Nat) (r : ℚ × ℚ) : Prop :=
  holdsFloat rom (2 * sizeofFloat * slot) r.1 ∧
  holdsFloat rom (2 * sizeofFloat * slot + sizeofFloat) r.2

/-- Both alarm outputs are on: red LED `HIGH` and the 1000 Hz tone playing
on the buzzer. -/
def alarmOn (s : State) : Prop :=
  s.digital ledRedPin = true ∧ s.toneOn buzzerPin = some 1000

/-- Both alarm outputs are off: red LED `LOW` and no tone on the buzzer. -/
def alarmOff (s : State) : Prop :=
  s.digital ledRedPin = false ∧ s.toneOn buzzerPin = none

/-- A state with read index 0 and cursor 0 whose temperature buffer and
totals are chosen freely; used to exhibit cycles with a prescribed average. -/
def sampleState (tempReadings : List ℚ) (totalTemp totalLight : ℚ) : State :=
  { powerOn (fun _ => EepromByte.old 0) with
    tempReadings := tempReadings
    totalTemp := totalTemp
    totalLight := totalLight }

/-- Number of serial lines in a piece of serial output. -/
def lineCount (out : List SerialItem) : Nat :=
  out.count SerialItem.newline

/-- Number of light-level LEDs that are `HIGH`. -/
def activeTiers (s : State) : Nat :=
  (ledPins.filter (fun pin => s.digital pin)).length

/-! ## Lists, the sample window and the blocks of `loop` -/

/-- Overwriting position `r` splits the list around the new element. -/
theorem list_set_split (l : List ℚ) (r : Nat) (x : ℚ) (h : r < l.length) :
    l.set r x = l.take r ++ x :: l.drop (r + 1) := by
  rw [List.set_eq_take_append_cons_drop, if_pos h]

/-- Reading back the position just written. -/
theorem getD_set_self (l : List ℚ) (r : Nat) (x : ℚ) (h : r < l.length) :
    (l.set r x).getD r 0 = x := by
  simp [List.getD_eq_getElem?_getD, h]

/-- A list rotated by `r` starts with its element at position `r`. -/
theorem rotate_at (l : List ℚ) (r : Nat) (h : r < l.length) :
    l.rotate r = l.getD r 0 :: (l.drop (r + 1) ++ l.take r) := by
  rw [List.rotate_eq_drop_append_take (le_of_lt h), List.getD_eq_getElem l 0 h,
    List.drop_eq_getElem_cons h, List.cons_append]

/-- Overwriting the oldest entry and advancing the index shifts the rotated view
by one and appends the new element. -/
theorem rotate_set_succ (l : List ℚ) (r : Nat) (x : ℚ) (h : r < l.length) :
    (l.set r x).rotate ((r + 1) % l.length) = l.drop (r + 1) ++ l.take r ++ [x] := by
  have hlen : (l.set r x).length = l.length := List.length_set _ _ _
  have htake : (l.take r ++ [x]).length = r + 1 := by
    rw [List.length_append, List.length_take, min_eq_left (le_of_lt h)]; rfl
  have hsplit : l.set r x = (l.take r ++ [x]) ++ l.drop (r + 1) := by
    rw [list_set_split l r x h, List.append_assoc]; rfl
  rw [← hlen, List.rotate_mod, List.rotate_eq_drop_append_take (by rw [hlen]; exact h),
    hsplit, List.drop_left' htake, List.take_left' htake, List.append_assoc]

/-- The LED `for` loop runs its body for `i = 0, 1, 2, 3`. -/
theorem driveLeds_unfold (s : State) :
    driveLeds s = lightLed (lightLed (lightLed (lightLed s 0) 1) 2) 3 := rfl

/-- One LED write touches nothing but the pin levels. -/
theorem lightLed_frame (s : State) (i : Nat) :
    (lightLed s i).tempReadings = s.tempReadings ∧ (lightLed s i).lightReadings = s.lightReadings ∧
    (lightLed s i).readIndex = s.readIndex ∧ (lightLed s i).totalTemp = s.totalTemp ∧
    (lightLed s i).totalLight = s.totalLight ∧ (lightLed s i).averageTemp = s.averageTemp ∧
    (lightLed s i).averageLight = s.averageLight ∧ (lightLed s i).eepromIndex = s.eepromIndex ∧
    (lightLed s i).eeprom = s.eeprom ∧ (lightLed s i).serial = s.serial ∧
    (lightLed s i).toneOn = s.toneOn ∧ (lightLed s i).outputMode = s.outputMode ∧
    (lightLed s i).serialBaud = s.serialBaud := by
  unfold lightLed
  split <;> simp [digitalWrite]

/-- The anomaly check leaves the filter state alone. -/
theorem checkAnomaly_frame (s : State) :
    (checkAnomaly s).tempReadings = s.tempReadings ∧
    (checkAnomaly s).lightReadings = s.lightReadings ∧
    (checkAnomaly s).readIndex = s.readIndex ∧ (checkAnomaly s).totalTemp = s.totalTemp ∧
    (checkAnomaly s).totalLight = s.totalLight ∧ (checkAnomaly s).averageTemp = s.averageTemp ∧
    (checkAnomaly s).averageLight = s.averageLight := by
  unfold checkAnomaly
  split
  · simp only [digitalWrite, tone, eepromPut, serialDo]
    split <;> simp
  · simp [digitalWrite, noTone]

/-- The window always has `numReadings` elements. -/
theorem window_length (xs : List ℚ) : (window xs).length = numReadings := by
  simp [window]

/-- Before any sample the window is the zero-filled buffer. -/
theorem window_nil : window [] = List.replicate numReadings 0 := rfl

/-- A new sample drops the oldest element of the window and joins at the end. -/
theorem window_snoc (xs : List ℚ) (x : ℚ) : window (xs ++ [x]) = (window xs).tail ++ [x] := by
  unfold window
  rw [List.tail_drop, ← List.append_assoc, List.length_append, List.length_singleton,
    List.drop_append_of_le_length]
  simp [numReadings]

/-- Sum of the window after a new sample. -/
theorem window_sum_snoc (xs : List ℚ) (x : ℚ) :
    (window (xs ++ [x])).sum = (window xs).sum - (window xs).headD 0 + x := by
  rw [window_snoc]
  have h := window_length xs
  cases hw : window xs with
  | nil => rw [hw] at h; simp [numReadings] at h
  | cons y ys => simp

/-- With at most `numReadings` samples the window is zeros followed by all samples. -/
theorem window_of_short (xs : List ℚ) (h : xs.length ≤ numReadings) :
    window xs = List.replicate (numReadings - xs.length) 0 ++ xs := by
  unfold window
  rw [List.drop_append_of_le_length (by simpa using h)]
  simp [List.drop_replicate]

/-- With at least `numReadings` samples the window is the last `numReadings` of them. -/
theorem window_of_long (xs : List ℚ) (h : numReadings ≤ xs.length) :
    window xs = xs.drop (xs.length - numReadings) := by
  unfold window
  rw [List.drop_append_eq_append_drop]
  simp [List.drop_eq_nil_of_le, h]

/-- One push on one channel: the rotated buffer stays the window and the total
stays its sum. -/
theorem filter_step (buf : List ℚ) (r : Nat) (tot x : ℚ) (xs : List ℚ)
    (hlen : buf.length = numReadings) (hr : r < numReadings)
    (hrot : buf.rotate r = window xs) (htot : tot = (window xs).sum) :
    (buf.set r x).rotate ((r + 1) % numReadings) = window (xs ++ [x]) ∧
    tot - buf.getD r 0 + (buf.set r x).getD r 0 = (window (xs ++ [x])).sum := by
  have hr2 : r < buf.length := by rw [hlen]; exact hr
  have hw : window xs = buf.getD r 0 :: (buf.drop (r + 1) ++ buf.take r) := by
    rw [← hrot, rotate_at buf r hr2]
  constructor
  · rw [window_snoc, hw, ← hlen, rotate_set_succ buf r x hr2]
    rfl
  · rw [window_sum_snoc, getD_set_self buf r x hr2, htot, hw]
    rfl

/-- A run extended by one cycle. -/
theorem run_snoc (s : State) (inputs : List Analog) (a : Analog) :
    run s (inputs ++ [a]) = loop (run s inputs) a := by
  simp [run, List.foldl_append]

/-- What the anomaly check finds: the averages just computed, and cursor, EEPROM,
serial output, tone and pin configuration as the cycle found them. -/
theorem before_check_frame (s : State) (a : Analog) :
    (driveLeds (showReadings (pushReadings s a))).averageTemp = (pushReadings s a).averageTemp ∧
    (driveLeds (showReadings (pushReadings s a))).averageLight = (pushReadings s a).averageLight ∧
    (driveLeds (showReadings (pushReadings s a))).eepromIndex = s.eepromIndex ∧
    (driveLeds (showReadings (pushReadings s a))).eeprom = s.eeprom ∧
    (driveLeds (showReadings (pushReadings s a))).serial = s.serial ∧
    (driveLeds (showReadings (pushReadings s a))).toneOn = s.toneOn ∧
    (driveLeds (showReadings (pushReadings s a))).outputMode = s.outputMode ∧
    (driveLeds (showReadings (pushReadings s a))).serialBaud = s.serialBaud := by
  simp only [driveLeds_unfold, lightLed_frame]
  exact ⟨rfl, rfl, rfl, rfl, rfl, rfl, rfl, rfl⟩

/-- The filter state after one cycle. -/
theorem loop_filter (s : State) (a : Analog) :
    (loop s a).tempReadings = s.tempReadings.set s.readIndex (readTemperature a.temp) ∧
    (loop s a).lightReadings = s.lightReadings.set s.readIndex (readLight a.light) ∧
    (loop s a).readIndex = (s.readIndex + 1) % numReadings ∧
    (loop s a).totalTemp = s.totalTemp - s.tempReadings.getD s.readIndex 0 +
      (s.tempReadings.set s.readIndex (readTemperature a.temp)).getD s.readIndex 0 ∧
    (loop s a).totalLight = s.totalLight - s.lightReadings.getD s.readIndex 0 +
      (s.lightReadings.set s.readIndex (readLight a.light)).getD s.readIndex 0 ∧
    (loop s a).averageTemp = (loop s a).totalTemp / 30 ∧
    (loop s a).averageLight = (loop s a).totalLight / 30 := by
  unfold loop
  simp only [checkAnomaly_frame, driveLeds_unfold, lightLed_frame]
  simp [pushReadings, showReadings, lcdDo, numReadings]

/-- Writing 0 into a zero-filled list changes nothing. -/
theorem set_replicate_zero (n i : Nat) :
    (List.replicate n (0 : ℚ)).set i 0 = List.replicate n 0 := by
  induction n generalizing i with
  | zero => rfl
  | succ n ih => cases i <;> simp [List.replicate_succ, ih]

/-- The zero-fill loop of `setup()` keeps zero-filled buffers zero-filled and
touches nothing else of the filter, the cursor, the EEPROM or the serial log. -/
theorem foldl_clearReading (is : List Nat) (s : State) (n : Nat)
    (ht : s.tempReadings = List.replicate n 0) (hl : s.lightReadings = List.replicate n 0) :
    (is.foldl clearReading s).tempReadings = List.replicate n 0 ∧
    (is.foldl clearReading s).lightReadings = List.replicate n 0 ∧
    (is.foldl clearReading s).readIndex = s.readIndex ∧
    (is.foldl clearReading s).totalTemp = s.totalTemp ∧
    (is.foldl clearReading s).totalLight = s.totalLight ∧
    (is.foldl clearReading s).eepromIndex = s.eepromIndex ∧
    (is.foldl clearReading s).eeprom = s.eeprom ∧
    (is.foldl clearReading s).serial = s.serial := by
  induction is generalizing s with
  | nil => exact ⟨ht, hl, rfl, rfl, rfl, rfl, rfl, rfl⟩
  | cons i is ih =>
    rw [List.foldl_cons]
    have h := ih (clearReading s i) (by simp [clearReading, ht, set_replicate_zero])
      (by simp [clearReading, hl, set_replicate_zero])
    exact h

/-- The startup state: zero-filled buffers, zero totals, read index and cursor 0,
EEPROM as found, nothing printed. -/
theorem startup_fields (rom : Nat → EepromByte) :
    (startup rom).tempReadings = List.replicate numReadings 0 ∧
    (startup rom).lightReadings = List.replicate numReadings 0 ∧
    (startup rom).readIndex = 0 ∧ (startup rom).totalTemp = 0 ∧ (startup rom).totalLight = 0 ∧
    (startup rom).eepromIndex = 0 ∧ (startup rom).eeprom = rom ∧ (startup rom).serial = [] := by
  unfold startup setup
  simp only [lcdDo]
  exact foldl_clearReading _ _ numReadings rfl rfl

/-- Invariant of the two moving-average filters along any run from startup. -/
theorem run_filter_invariant (rom : Nat → EepromByte) (inputs : List Analog) :
    (run (startup rom) inputs).tempReadings.length = numReadings ∧
    (run (startup rom) inputs).lightReadings.length = numReadings ∧
    (run (startup rom) inputs).readIndex = inputs.length % numReadings ∧
    (run (startup rom) inputs).tempReadings.rotate (run (startup rom) inputs).readIndex =
      window (tempSamples inputs) ∧
    (run (startup rom) inputs).lightReadings.rotate (run (startup rom) inputs).readIndex =
      window (lightSamples inputs) ∧
    (run (startup rom) inputs).totalTemp = (window (tempSamples inputs)).sum ∧
    (run (startup rom) inputs).totalLight = (window (lightSamples inputs)).sum := by
  induction inputs using List.reverseRecOn with
  | nil =>
    obtain ⟨h1, h2, h3, h4, h5, _, _, _⟩ := startup_fields rom
    simp only [run, List.foldl_nil, h1, h2, h3, h4, h5, tempSamples, lightSamples, List.map_nil,
      window_nil]
    simp [numReadings]
  | append_singleton l a ih =>
    obtain ⟨hlt, hll, hr, hrt, hrl, htt, htl⟩ := ih
    obtain ⟨f1, f2, f3, f4, f5, _, _⟩ := loop_filter (run (startup rom) l) a
    have hrlt : (run (startup rom) l).readIndex < numReadings := by
      rw [hr]; exact Nat.mod_lt _ (by decide)
    have ht := filter_step _ _ _ (readTemperature a.temp) _ hlt hrlt hrt htt
    have hl := filter_step _ _ _ (readLight a.light) _ hll hrlt hrl htl
    rw [run_snoc, f1, f2, f3, f4, f5]
    refine ⟨by rw [List.length_set]; exact hlt, by rw [List.length_set]; exact hll, ?_, ?_, ?_,
      ?_, ?_⟩
    · rw [hr, List.length_append, List.length_singleton]
      simp [numReadings]
    · simpa [tempSamples] using ht.1
    · simpa [lightSamples] using hl.1
    · simpa [tempSamples] using ht.2
    · simpa [lightSamples] using hl.2

/-! ## The anomaly branch -/

/-- The anomaly check when the average temperature is above 23. -/
theorem checkAnomaly_hot (s : State) (h : s.averageTemp > 23) :
    (checkAnomaly s).digital = (fun p => if p = ledRedPin then true else s.digital p) ∧
    (checkAnomaly s).toneOn = (fun p => if p = buzzerPin then some 1000 else s.toneOn p) ∧
    (checkAnomaly s).eeprom = (eepromPut (eepromPut s s.eepromIndex s.averageTemp)
      (s.eepromIndex + sizeofFloat) s.averageLight).eeprom ∧
    (checkAnomaly s).eepromIndex =
      (if s.eepromIndex + sizeofFloat * 2 ≥ eepromSize - sizeofFloat * 2 then 0
        else s.eepromIndex + sizeofFloat * 2) ∧
    (checkAnomaly s).serial = s.serial ++
      [SerialItem.text "Anomalia detectada na agua! Temp: ", SerialItem.number s.averageTemp,
       SerialItem.text " °C, Luminosidade: ", SerialItem.number s.averageLight,
       SerialItem.text "%", SerialItem.newline] ∧
    (checkAnomaly s).outputMode = s.outputMode ∧ (checkAnomaly s).serialBaud = s.serialBaud := by
  unfold checkAnomaly
  rw [if_pos h]
  simp only [digitalWrite, tone, eepromPut, serialDo]
  split <;> simp

/-- The anomaly check when the average temperature is at most 23. -/
theorem checkAnomaly_normal (s : State) (h : ¬ s.averageTemp > 23) :
    (checkAnomaly s).digital = (fun p => if p = ledRedPin then false else s.digital p) ∧
    (checkAnomaly s).toneOn = (fun p => if p = buzzerPin then none else s.toneOn p) ∧
    (checkAnomaly s).eeprom = s.eeprom ∧ (checkAnomaly s).eepromIndex = s.eepromIndex ∧
    (checkAnomaly s).serial = s.serial ∧
    (checkAnomaly s).outputMode = s.outputMode ∧ (checkAnomaly s).serialBaud = s.serialBaud := by
  unfold checkAnomaly
  rw [if_neg h]
  simp [digitalWrite, noTone]

/-- The averages after a cycle are those computed by its push. -/
theorem loop_averages (s : State) (a : Analog) :
    (loop s a).averageTemp = (driveLeds (showReadings (pushReadings s a))).averageTemp ∧
    (loop s a).averageLight = (driveLeds (showReadings (pushReadings s a))).averageLight := by
  unfold loop
  exact ⟨(checkAnomaly_frame _).2.2.2.2.2.1, (checkAnomaly_frame _).2.2.2.2.2.2⟩

/-- What an anomalous cycle does to the alarm, the EEPROM and the serial port. -/
theorem loop_hot (s : State) (a : Analog) (h : (loop s a).averageTemp > 23) :
    (loop s a).digital ledRedPin = true ∧
    (loop s a).toneOn buzzerPin = some 1000 ∧
    (loop s a).eeprom = (fun addr =>
      if s.eepromIndex + sizeofFloat ≤ addr ∧ addr < s.eepromIndex + sizeofFloat + sizeofFloat then
        EepromByte.floatByte (loop s a).averageLight (addr - (s.eepromIndex + sizeofFloat))
      else if s.eepromIndex ≤ addr ∧ addr < s.eepromIndex + sizeofFloat then
        EepromByte.floatByte (loop s a).averageTemp (addr - s.eepromIndex)
      else s.eeprom addr) ∧
    (loop s a).eepromIndex =
      (if s.eepromIndex + sizeofFloat * 2 ≥ eepromSize - sizeofFloat * 2 then 0
        else s.eepromIndex + sizeofFloat * 2) ∧
    (loop s a).serial = s.serial ++
      [SerialItem.text "Anomalia detectada na agua! Temp: ",
       SerialItem.number (loop s a).averageTemp,
       SerialItem.text " °C, Luminosidade: ", SerialItem.number (loop s a).averageLight,
       SerialItem.text "%", SerialItem.newline] := by
  obtain ⟨hT, hL⟩ := loop_averages s a
  rw [hT] at h
  rw [hT, hL]
  obtain ⟨_, _, b3, b4, b5, b6, b7, b8⟩ := before_check_frame s a
  obtain ⟨c1, c2, c3, c4, c5, _, _⟩ := checkAnomaly_hot _ h
  unfold loop
  rw [c1, c2, c3, c4, c5, b3, b5, b6]
  refine ⟨by simp, by simp, ?_, rfl, rfl⟩
  simp only [eepromPut, b3, b4]

/-- What a normal cycle does to the alarm, the EEPROM and the serial port. -/
theorem loop_normal (s : State) (a : Analog) (h : ¬ (loop s a).averageTemp > 23) :
    (loop s a).digital ledRedPin = false ∧
    (loop s a).toneOn buzzerPin = none ∧
    (loop s a).eeprom = s.eeprom ∧ (loop s a).eepromIndex = s.eepromIndex ∧
    (loop s a).serial = s.serial ∧
    (loop s a).outputMode = s.outputMode ∧ (loop s a).serialBaud = s.serialBaud := by
  obtain ⟨hT, hL⟩ := loop_averages s a
  rw [hT] at h
  obtain ⟨_, _, b3, b4, b5, b6, b7, b8⟩ := before_check_frame s a
  obtain ⟨c1, c2, c3, c4, c5, c6, c7⟩ := checkAnomaly_normal _ h
  unfold loop
  rw [c1, c2, c3, c4, c5, c6, c7, b3, b4, b5, b7, b8]
  simp

/-! ## The moving-average filters (C1 to C3) -/

/-- After at least one cycle the averages are the totals divided by 30. -/
theorem run_average (s : State) (inputs : List Analog) (h : inputs ≠ []) :
    (run s inputs).averageTemp = (run s inputs).totalTemp / 30 ∧
    (run s inputs).averageLight = (run s inputs).totalLight / 30 := by
  induction inputs using List.reverseRecOn with
  | nil => exact absurd rfl h
  | append_singleton l a _ =>
    rw [run_snoc]
    exact ⟨(loop_filter _ a).2.2.2.2.2.1, (loop_filter _ a).2.2.2.2.2.2⟩

/-- C1: from the startup state, after `k ≥ 30` cycles the average temperature
computed by the `k`-th `loop()` is the arithmetic mean of exactly the last 30
temperature samples read, and the average light is the mean of the last 30
light samples; for `k = 30` these are the means of all samples read. -/
theorem C1_average_is_mean_of_last_thirty (rom : Nat → EepromByte) (inputs : List Analog)
    (hk : 30 ≤ inputs.length) :
    ((tempSamples inputs).drop (inputs.length - 30)).length = 30 ∧
    ((lightSamples inputs).drop (inputs.length - 30)).length = 30 ∧
    (run (startup rom) inputs).averageTemp =
      ((tempSamples inputs).drop (inputs.length - 30)).sum / 30 ∧
    (run (startup rom) inputs).averageLight =
      ((lightSamples inputs).drop (inputs.length - 30)).sum / 30 ∧
    (inputs.length = 30 →
      (run (startup rom) inputs).averageTemp = (tempSamples inputs).sum / 30 ∧
      (run (startup rom) inputs).averageLight = (lightSamples inputs).sum / 30) := by
  have hne : inputs ≠ [] := by
    intro h; rw [h] at hk; simp at hk
  obtain ⟨_, _, _, _, _, htt, htl⟩ := run_filter_invariant rom inputs
  obtain ⟨hat, hal⟩ := run_average (startup rom) inputs hne
  have hwt : window (tempSamples inputs) = (tempSamples inputs).drop (inputs.length - 30) := by
    have := window_of_long (tempSamples inputs) (by simpa [tempSamples, numReadings] using hk)
    simpa [tempSamples, numReadings] using this
  have hwl : window (lightSamples inputs) = (lightSamples inputs).drop (inputs.length - 30) := by
    have := window_of_long (lightSamples inputs) (by simpa [lightSamples, numReadings] using hk)
    simpa [lightSamples, numReadings] using this
  have e1 : (run (startup rom) inputs).averageTemp =
      ((tempSamples inputs).drop (inputs.length - 30)).sum / 30 := by rw [hat, htt, hwt]
  have e2 : (run (startup rom) inputs).averageLight =
      ((lightSamples inputs).drop (inputs.length - 30)).sum / 30 := by rw [hal, htl, hwl]
  refine ⟨?_, ?_, e1, e2, ?_⟩
  · rw [List.length_drop]; simp [tempSamples]; omega
  · rw [List.length_drop]; simp [lightSamples]; omega
  · intro h30
    rw [e1, e2, h30]
    simp

/-- Witness for C1: after one reading of 1023 and thirty readings of 150 the
average temperature is the conversion of 150; the first reading has left the
window. -/
theorem C1_witness :
    (run (startup (fun _ => EepromByte.old 0))
      (Analog.mk 1023 0 :: List.replicate 30 (Analog.mk 150 480))).averageTemp = 7950 / 341 := by
  have h := C1_average_is_mean_of_last_thirty (fun _ => EepromByte.old 0)
    (Analog.mk 1023 0 :: List.replicate 30 (Analog.mk 150 480)) (by simp)
  rw [h.2.2.1]
  norm_num [tempSamples, readTemperature, List.replicate]

/-- C2: from the startup state, after `k` cycles with `0 < k < 30` the averages
are the sums of the `k` samples read so far divided by 30, not by `k`. -/
theorem C2_startup_average_divides_by_thirty (rom : Nat → EepromByte) (inputs : List Analog)
    (hpos : 0 < inputs.length) (hlt : inputs.length < 30) :
    (run (startup rom) inputs).averageTemp = (tempSamples inputs).sum / 30 ∧
    (run (startup rom) inputs).averageLight = (lightSamples inputs).sum / 30 := by
  have hne : inputs ≠ [] := by
    intro h; rw [h] at hpos; simp at hpos
  obtain ⟨_, _, _, _, _, htt, htl⟩ := run_filter_invariant rom inputs
  obtain ⟨hat, hal⟩ := run_average (startup rom) inputs hne
  have hwt := window_of_short (tempSamples inputs)
    (by simp only [tempSamples, List.length_map, numReadings]; omega)
  have hwl := window_of_short (lightSamples inputs)
    (by simp only [lightSamples, List.length_map, numReadings]; omega)
  rw [hat, hal, htt, htl, hwt, hwl]
  simp

/-- Witness for C2: after two cycles reading 150 and 1023 the average
temperature is the sum of the two samples divided by 30. -/
theorem C2_witness :
    (run (startup (fun _ => EepromByte.old 0))
      [Analog.mk 150 480, Analog.mk 1023 0]).averageTemp =
      (readTemperature 150 + readTemperature 1023) / 30 := by
  have h := C2_startup_average_divides_by_thirty (fun _ => EepromByte.old 0)
    [Analog.mk 150 480, Analog.mk 1023 0] (by simp) (by simp)
  rw [h.1]
  simp [tempSamples]

/-- C3: in the startup state and after every `loop()` of any run, `totalTemp`
is the sum of the 30 entries of `tempReadings` and `totalLight` is the sum of
the 30 entries of `lightReadings`. -/
theorem C3_totals_equal_buffer_sums (rom : Nat → EepromByte) (inputs : List Analog) :
    (run (startup rom) inputs).tempReadings.length = 30 ∧
    (run (startup rom) inputs).lightReadings.length = 30 ∧
    (run (startup rom) inputs).totalTemp = (run (startup rom) inputs).tempReadings.sum ∧
    (run (startup rom) inputs).totalLight = (run (startup rom) inputs).lightReadings.sum := by
  obtain ⟨hlt, hll, _, hrt, hrl, htt, htl⟩ := run_filter_invariant rom inputs
  refine ⟨hlt, hll, ?_, ?_⟩
  · rw [htt, ← hrt]
    exact (List.rotate_perm _ _).sum_eq
  · rw [htl, ← hrl]
    exact (List.rotate_perm _ _).sum_eq

/-! ## The alarm threshold (C4) -/

/-- The alarm outputs after any cycle are decided by that cycle's average
temperature alone. -/
theorem loop_alarm (s : State) (a : Analog) :
    ((loop s a).averageTemp > 23 → alarmOn (loop s a)) ∧
    (¬ (loop s a).averageTemp > 23 → alarmOff (loop s a)) := by
  constructor
  · intro h
    exact ⟨(loop_hot s a h).1, (loop_hot s a h).2.1⟩
  · intro h
    exact ⟨(loop_normal s a h).1, (loop_normal s a h).2.1⟩

/-- C4: after every cycle, whatever the state before it, the red LED is on
exactly when that cycle's average temperature is above 23, and so is the
buzzer tone; otherwise both are off.  Averages 23 and 22.999999 leave the
alarm off, 23.000001 turns it on, and averages alternating between 22.9 and
23.1 in consecutive cycles switch the alarm off and on in step. -/
theorem C4_alarm_iff_average_above_23 (s : State) (a b : Analog) :
    ((loop s a).digital ledRedPin = true ↔ (loop s a).averageTemp > 23) ∧
    ((loop s a).toneOn buzzerPin = some 1000 ↔ (loop s a).averageTemp > 23) ∧
    (¬ (loop s a).averageTemp > 23 → alarmOff (loop s a)) ∧
    ((loop s a).averageTemp = 23 → alarmOff (loop s a)) ∧
    ((loop s a).averageTemp = 22.999999 → alarmOff (loop s a)) ∧
    ((loop s a).averageTemp = 23.000001 → alarmOn (loop s a)) ∧
    ((loop s a).averageTemp = 22.9 → (loop (loop s a) b).averageTemp = 23.1 →
      alarmOff (loop s a) ∧ alarmOn (loop (loop s a) b)) ∧
    ((loop s a).averageTemp = 23.1 → (loop (loop s a) b).averageTemp = 22.9 →
      alarmOn (loop s a) ∧ alarmOff (loop (loop s a) b)) := by
  obtain ⟨hon, hoff⟩ := loop_alarm s a
  obtain ⟨hon2, hoff2⟩ := loop_alarm (loop s a) b
  refine ⟨?_, ?_, hoff, ?_, ?_, ?_, ?_, ?_⟩
  · constructor
    · intro h
      by_contra hn
      have := (hoff hn).1
      rw [h] at this
      exact absurd this (by decide)
    · intro h; exact (hon h).1
  · constructor
    · intro h
      by_contra hn
      have := (hoff hn).2
      rw [h] at this
      exact absurd this (by decide)
    · intro h; exact (hon h).2
  · intro h; apply hoff; rw [h]; norm_num
  · intro h; apply hoff; rw [h]; norm_num
  · intro h; apply hon; rw [h]; norm_num
  · intro h1 h2
    exact ⟨hoff (by rw [h1]; norm_num), hon2 (by rw [h2]; norm_num)⟩
  · intro h1 h2
    exact ⟨hon (by rw [h1]; norm_num), hoff2 (by rw [h2]; norm_num)⟩

/-- The first cycle from a `sampleState`. -/
theorem sampleState_average (buf : List ℚ) (y : ℚ) (rest : List ℚ) (tt tl : ℚ) (a : Analog)
    (hb : buf = y :: rest) :
    (loop (sampleState buf tt tl) a).averageTemp = (tt - y + readTemperature a.temp) / 30 ∧
    (loop (sampleState buf tt tl) a).tempReadings = readTemperature a.temp :: rest ∧
    (loop (sampleState buf tt tl) a).readIndex = 1 ∧
    (loop (sampleState buf tt tl) a).totalTemp = tt - y + readTemperature a.temp := by
  obtain ⟨f1, _, f3, f4, _, f6, _⟩ := loop_filter (sampleState buf tt tl) a
  rw [f6, f4, f1, f3]
  subst hb
  simp [sampleState, powerOn, numReadings]

/-- Witness for C4: a cycle whose average is exactly 23 leaves the alarm off,
one whose average is 23.000001 turns it on, and two consecutive cycles with
averages 22.9 and 23.1 have the alarm off and then on. -/
theorem C4_witness :
    (loop (sampleState (List.replicate 30 0) 740 0) (Analog.mk 0 0)).averageTemp = 23 ∧
    alarmOff (loop (sampleState (List.replicate 30 0) 740 0) (Analog.mk 0 0)) ∧
    (loop (sampleState (List.replicate 30 0) 740.00003 0) (Analog.mk 0 0)).averageTemp
      = 23.000001 ∧
    alarmOn (loop (sampleState (List.replicate 30 0) 740.00003 0) (Analog.mk 0 0)) ∧
    (loop (sampleState (0 :: -56 :: List.replicate 28 0) 737 0) (Analog.mk 0 0)).averageTemp
      = 22.9 ∧
    (loop (loop (sampleState (0 :: -56 :: List.replicate 28 0) 737 0) (Analog.mk 0 0))
      (Analog.mk 0 0)).averageTemp = 23.1 ∧
    alarmOff (loop (sampleState (0 :: -56 :: List.replicate 28 0) 737 0) (Analog.mk 0 0)) ∧
    alarmOn (loop (loop (sampleState (0 :: -56 :: List.replicate 28 0) 737 0) (Analog.mk 0 0))
      (Analog.mk 0 0)) := by
  have h1 : (loop (sampleState (List.replicate 30 0) 740 0) (Analog.mk 0 0)).averageTemp = 23 := by
    rw [(sampleState_average (List.replicate 30 0) 0 (List.replicate 29 0) _ _ _ rfl).1]
    norm_num [readTemperature]
  have h2 : (loop (sampleState (List.replicate 30 0) 740.00003 0) (Analog.mk 0 0)).averageTemp
      = 23.000001 := by
    rw [(sampleState_average (List.replicate 30 0) 0 (List.replicate 29 0) _ _ _ rfl).1]
    norm_num [readTemperature]
  obtain ⟨g1, g2, g3, g4⟩ := sampleState_average (0 :: -56 :: List.replicate 28 0) 0
    (-56 :: List.replicate 28 0) 737 0 (Analog.mk 0 0) rfl
  have h3 : (loop (sampleState (0 :: -56 :: List.replicate 28 0) 737 0)
      (Analog.mk 0 0)).averageTemp = 22.9 := by
    rw [g1]; norm_num [readTemperature]
  have h4 : (loop (loop (sampleState (0 :: -56 :: List.replicate 28 0) 737 0) (Analog.mk 0 0))
      (Analog.mk 0 0)).averageTemp = 23.1 := by
    obtain ⟨_, _, _, f4, _, f6, _⟩ := loop_filter
      (loop (sampleState (0 :: -56 :: List.replicate 28 0) 737 0) (Analog.mk 0 0)) (Analog.mk 0 0)
    rw [f6, f4, g2, g3, g4]
    norm_num [readTemperature]
  have h34 := (C4_alarm_iff_average_above_23 _ _ (Analog.mk 0 0)).2.2.2.2.2.2.1 h3 h4
  exact ⟨h1, (C4_alarm_iff_average_above_23 _ _ (Analog.mk 0 0)).2.2.2.1 h1, h2,
    (C4_alarm_iff_average_above_23 _ _ (Analog.mk 0 0)).2.2.2.2.2.1 h2, h3, h4, h34.1, h34.2⟩

/-! ## The EEPROM log (C5 to C8) -/

/-- Records of a run extended by one cycle. -/
theorem records_snoc (s : State) (inputs : List Analog) (a : Analog) :
    records s (inputs ++ [a]) = records s inputs ++
      (if (loop (run s inputs) a).averageTemp > 23 then
        [((loop (run s inputs) a).averageTemp, (loop (run s inputs) a).averageLight)]
      else []) := by
  induction inputs generalizing s with
  | nil => simp [records, run]
  | cons b rest ih =>
    have hrun : run s (b :: rest) = run (loop s b) rest := rfl
    rw [List.cons_append, records, records, ih (loop s b), hrun, List.append_assoc]

/-- The cursor after one cycle, with the constants of the sketch evaluated. -/
theorem loop_cursor (s : State) (a : Analog) :
    (loop s a).eepromIndex =
      if (loop s a).averageTemp > 23 then (if 892 ≤ s.eepromIndex + 8 then 0 else s.eepromIndex + 8)
      else s.eepromIndex := by
  by_cases h : (loop s a).averageTemp > 23
  · rw [if_pos h, (loop_hot s a h).2.2.2.1]
    simp [sizeofFloat, eepromSize]
  · rw [if_neg h, (loop_normal s a h).2.2.2.1]

/-- The cursor counts the appended records modulo 112, in units of 8 bytes. -/
theorem run_cursor (rom : Nat → EepromByte) (inputs : List Analog) :
    (run (startup rom) inputs).eepromIndex =
      8 * ((records (startup rom) inputs).length % 112) := by
  induction inputs using List.reverseRecOn with
  | nil =>
    have h0 : (run (startup rom) []).eepromIndex = 0 := (startup_fields rom).2.2.2.2.2.1
    rw [h0]
    rfl
  | append_singleton l a ih =>
    rw [run_snoc, records_snoc, loop_cursor, ih]
    by_cases h : (loop (run (startup rom) l) a).averageTemp > 23
    · simp only [if_pos h, List.length_append, List.length_singleton]
      split <;> omega
    · simp only [if_neg h, List.length_append, List.length_nil, Nat.add_zero]

/-- C5: the log has room for `900 / (2 * 4) = 112` records, and after any run
from startup in which `k` cycles were anomalous the cursor is
`eepromIndex = 8 * (k mod 112)`; it is back at 0 exactly when `k` is a
multiple of 112. -/
theorem C5_cursor_counts_appends_mod_capacity (rom : Nat → EepromByte) (inputs : List Analog) :
    eepromSize / (2 * sizeofFloat) = 112 ∧
    (run (startup rom) inputs).eepromIndex =
      8 * ((records (startup rom) inputs).length % 112) ∧
    (run (startup rom) inputs).eepromIndex / (2 * sizeofFloat) =
      (records (startup rom) inputs).length % (eepromSize / (2 * sizeofFloat)) ∧
    ((run (startup rom) inputs).eepromIndex = 0 ↔
      (records (startup rom) inputs).length % 112 = 0) := by
  have h := run_cursor rom inputs
  refine ⟨by decide, h, ?_, ?_⟩
  · rw [h]
    simp [sizeofFloat, eepromSize]
  · rw [h]
    omega

/-- The EEPROM after an anomalous cycle started with the cursor on slot `q`:
slot `q` holds the new record and every other slot keeps what it held. -/
theorem loop_hot_slots (s : State) (a : Analog) (q : Nat)
    (h : (loop s a).averageTemp > 23) (hq : s.eepromIndex = 8 * q) :
    holdsRecord (loop s a).eeprom q ((loop s a).averageTemp, (loop s a).averageLight) ∧
    ∀ slot r, slot ≠ q → holdsRecord s.eeprom slot r → holdsRecord (loop s a).eeprom slot r := by
  rw [(loop_hot s a h).2.2.1]
  simp only [holdsRecord, holdsFloat, sizeofFloat, hq]
  refine ⟨⟨?_, ?_⟩, ?_⟩
  · intro j hj
    rw [if_neg (by omega), if_pos (by omega)]
    congr 1
    omega
  · intro j hj
    rw [if_pos (by omega)]
    congr 1
    omega
  · intro slot r hne hr
    refine ⟨?_, ?_⟩
    · intro j hj
      rw [if_neg (by omega), if_neg (by omega)]
      exact hr.1 j hj
    · intro j hj
      rw [if_neg (by omega), if_neg (by omega)]
      exact hr.2 j hj

/-- Each of the last 112 records appended during a run from startup sits in
the slot given by its position modulo 112. -/
theorem run_log (rom : Nat → EepromByte) (inputs : List Analog) (m : Nat) (r : ℚ × ℚ)
    (hm : (records (startup rom) inputs)[m]? = some r)
    (hrecent : (records (startup rom) inputs).length ≤ m + 112) :
    holdsRecord (run (startup rom) inputs).eeprom (m % 112) r := by
  induction inputs using List.reverseRecOn generalizing m r with
  | nil => simp [records] at hm
  | append_singleton l a ih =>
    rw [run_snoc]
    rw [records_snoc] at hm hrecent
    by_cases h : (loop (run (startup rom) l) a).averageTemp > 23
    · rw [if_pos h] at hm hrecent
      rw [List.length_append, List.length_singleton] at hrecent
      obtain ⟨hnew, hold⟩ := loop_hot_slots (run (startup rom) l) a
        ((records (startup rom) l).length % 112) h (run_cursor rom l)
      by_cases hlt : m < (records (startup rom) l).length
      · rw [List.getElem?_append_left hlt] at hm
        exact hold _ r (by omega) (ih m r hm (by omega))
      · have hlen : (records (startup rom) l ++
            [((loop (run (startup rom) l) a).averageTemp,
              (loop (run (startup rom) l) a).averageLight)]).length
            = (records (startup rom) l).length + 1 := by simp
        have hmlt : m < (records (startup rom) l).length + 1 := by
          by_contra hge
          rw [List.getElem?_eq_none (by rw [hlen]; omega)] at hm
          exact absurd hm (by simp)
        have hmeq : m = (records (startup rom) l).length := by omega
        subst hmeq
        rw [List.getElem?_append_right (le_refl _)] at hm
        simp at hm
        rw [← hm]
        exact hnew
    · rw [if_neg h, List.append_nil] at hm hrecent
      rw [(loop_normal _ a h).2.2.1]
      exact ih m r hm hrecent

/-- C6: after a run from startup, each of the most recent 112 appended
records sits in the slot given by its append number modulo 112.  After exactly
113 appends slot 0 holds the 113th record and slot `i`, `1 ≤ i ≤ 111`, still
holds the `(i+1)`-th; after at least 112 appends slot `i` holds the most recent
record whose append number `n` is congruent to `i + 1` modulo 112.  (The
`n`-th record appended is `records[n - 1]`.) -/
theorem C6_log_keeps_most_recent_records (rom : Nat → EepromByte) (inputs : List Analog) :
    (∀ m r, (records (startup rom) inputs)[m]? = some r →
      (records (startup rom) inputs).length ≤ m + 112 →
      holdsRecord (run (startup rom) inputs).eeprom (m % 112) r) ∧
    ((records (startup rom) inputs).length = 113 →
      (∀ r, (records (startup rom) inputs)[112]? = some r →
        holdsRecord (run (startup rom) inputs).eeprom 0 r) ∧
      (∀ i r, 1 ≤ i → i ≤ 111 → (records (startup rom) inputs)[i]? = some r →
        holdsRecord (run (startup rom) inputs).eeprom i r)) ∧
    (112 ≤ (records (startup rom) inputs).length →
      ∀ i n r, i < 112 → 1 ≤ n → (records (startup rom) inputs)[n - 1]? = some r →
        n % 112 = (i + 1) % 112 →
        (∀ n', 1 ≤ n' → n' ≤ (records (startup rom) inputs).length →
          n' % 112 = (i + 1) % 112 → n' ≤ n) →
        holdsRecord (run (startup rom) inputs).eeprom i r) := by
  refine ⟨fun m r hm hrec => run_log rom inputs m r hm hrec, ?_, ?_⟩
  · intro hlen
    constructor
    · intro r hr
      exact run_log rom inputs 112 r hr (by omega)
    · intro i r h1 h2 hr
      have := run_log rom inputs i r hr (by omega)
      rwa [Nat.mod_eq_of_lt (by omega)] at this
  · intro _ i n r hi hn hr hcong hmax
    have hlt : n - 1 < (records (startup rom) inputs).length := by
      by_contra hge
      rw [List.getElem?_eq_none (by omega)] at hr
      exact absurd hr (by simp)
    have hrecent : (records (startup rom) inputs).length ≤ (n - 1) + 112 := by
      by_contra hgt
      have := hmax (n + 112) (by omega) (by omega) (by omega)
      omega
    have := run_log rom inputs (n - 1) r hr hrecent
    have hslot : (n - 1) % 112 = i := by omega
    rwa [hslot] at this

/-- Witness for C6: 114 cycles reading 1023 append 113 records, the first
being `(30, 0)` and the 113th `(450, 0)`; afterwards slot 0 holds the 113th
record and slot 1 the second. -/
theorem C6_witness :
    (records (startup (fun _ => EepromByte.old 0))
      (List.replicate 114 (Analog.mk 1023 0))).length = 113 ∧
    (records (startup (fun _ => EepromByte.old 0))
      (List.replicate 114 (Analog.mk 1023 0)))[0]? = some (30, 0) ∧
    holdsRecord (run (startup (fun _ => EepromByte.old 0))
      (List.replicate 114 (Analog.mk 1023 0))).eeprom 0 (450, 0) ∧
    holdsRecord (run (startup (fun _ => EepromByte.old 0))
      (List.replicate 114 (Analog.mk 1023 0))).eeprom 1 (45, 0) := by
  have hlen : (records (startup (fun _ => EepromByte.old 0))
      (List.replicate 114 (Analog.mk 1023 0))).length = 113 := by decide!
  obtain ⟨_, h113, _⟩ := C6_log_keeps_most_recent_records (fun _ => EepromByte.old 0)
    (List.replicate 114 (Analog.mk 1023 0))
  exact ⟨hlen, by decide!, (h113 hlen).1 (450, 0) (by decide!),
    (h113 hlen).2 1 (45, 0) (by decide) (by decide) (by decide!)⟩

/-- A cycle changes no EEPROM byte outside the eight bytes at the cursor. -/
theorem loop_eeprom_frame (s : State) (a : Analog) (addr : Nat)
    (hout : addr < s.eepromIndex ∨ s.eepromIndex + 8 ≤ addr) :
    (loop s a).eeprom addr = s.eeprom addr := by
  by_cases h : (loop s a).averageTemp > 23
  · rw [(loop_hot s a h).2.2.1]
    simp only [sizeofFloat]
    rw [if_neg (by omega), if_neg (by omega)]
  · rw [(loop_normal s a h).2.2.1]

/-- Bytes at address 896 and beyond are never written. -/
theorem run_eeprom_beyond (rom : Nat → EepromByte) (inputs : List Analog) (addr : Nat)
    (h : 896 ≤ addr) : (run (startup rom) inputs).eeprom addr = rom addr := by
  induction inputs using List.reverseRecOn with
  | nil =>
    have h0 : (run (startup rom) []).eeprom = rom := (startup_fields rom).2.2.2.2.2.2.1
    rw [h0]
  | append_singleton l a ih =>
    have hc := run_cursor rom l
    rw [run_snoc, loop_eeprom_frame _ a addr (by omega), ih]

/-- C7: in every state reachable from startup the cursor is a multiple of 8
between 0 and 888, so the eight bytes at the cursor lie inside the 900 bytes
of the store; the next cycle changes no byte outside those eight, and no
byte at address 900 or above is ever changed. -/
theorem C7_cursor_never_overruns_store (rom : Nat → EepromByte) (inputs : List Analog)
    (a : Analog) :
    (run (startup rom) inputs).eepromIndex % 8 = 0 ∧
    (run (startup rom) inputs).eepromIndex ≤ 888 ∧
    (run (startup rom) inputs).eepromIndex + 2 * sizeofFloat ≤ eepromSize ∧
    (∀ addr, (loop (run (startup rom) inputs) a).eeprom addr ≠
        (run (startup rom) inputs).eeprom addr →
      (run (startup rom) inputs).eepromIndex ≤ addr ∧
      addr < (run (startup rom) inputs).eepromIndex + 2 * sizeofFloat ∧ addr < eepromSize) ∧
    (∀ addr, eepromSize ≤ addr → (run (startup rom) inputs).eeprom addr = rom addr) := by
  have hc := run_cursor rom inputs
  simp only [sizeofFloat, eepromSize]
  refine ⟨by omega, by omega, by omega, ?_, ?_⟩
  · intro addr hne
    by_contra hout
    exact hne (loop_eeprom_frame _ a addr (by omega))
  · intro addr haddr
    exact run_eeprom_beyond rom inputs addr (by omega)

/-- C8: a cycle whose average temperature is above 23 stores that average in
the four bytes at the old cursor and the same cycle's average light in the
next four, leaves every other EEPROM byte unchanged, moves the cursor on by
one record (or back to 0), prints exactly one line to the serial port, and
raises the alarm.  Both stored averages are the totals after the push divided
by 30.  A cycle with average 24.5 thus stores 24.5 at the cursor. -/
theorem C8_anomalous_cycle_appends_one_record (s : State) (a : Analog)
    (h : (loop s a).averageTemp > 23) :
    holdsFloat (loop s a).eeprom s.eepromIndex (loop s a).averageTemp ∧
    holdsFloat (loop s a).eeprom (s.eepromIndex + sizeofFloat) (loop s a).averageLight ∧
    (∀ addr, addr < s.eepromIndex ∨ s.eepromIndex + 2 * sizeofFloat ≤ addr →
      (loop s a).eeprom addr = s.eeprom addr) ∧
    (loop s a).eepromIndex = (if 892 ≤ s.eepromIndex + 8 then 0 else s.eepromIndex + 8) ∧
    (loop s a).serial = s.serial ++
      [SerialItem.text "Anomalia detectada na agua! Temp: ",
       SerialItem.number (loop s a).averageTemp,
       SerialItem.text " °C, Luminosidade: ", SerialItem.number (loop s a).averageLight,
       SerialItem.text "%", SerialItem.newline] ∧
    lineCount ((loop s a).serial.drop s.serial.length) = 1 ∧
    (loop s a).averageTemp = (loop s a).totalTemp / 30 ∧
    (loop s a).averageLight = (loop s a).totalLight / 30 ∧
    (loop s a).totalTemp = s.totalTemp - s.tempReadings.getD s.readIndex 0 +
      (s.tempReadings.set s.readIndex (readTemperature a.temp)).getD s.readIndex 0 ∧
    (loop s a).totalLight = s.totalLight - s.lightReadings.getD s.readIndex 0 +
      (s.lightReadings.set s.readIndex (readLight a.light)).getD s.readIndex 0 ∧
    alarmOn (loop s a) ∧
    ((loop s a).averageTemp = 24.5 → holdsFloat (loop s a).eeprom s.eepromIndex 24.5) := by
  obtain ⟨h1, h2, h3, _, h5⟩ := loop_hot s a h
  obtain ⟨_, _, _, f4, f5, f6, f7⟩ := loop_filter s a
  have hT : holdsFloat (loop s a).eeprom s.eepromIndex (loop s a).averageTemp := by
    intro j hj
    rw [h3]
    simp only [sizeofFloat] at hj ⊢
    rw [if_neg (by omega), if_pos (by omega)]
    congr 1
    omega
  have hL : holdsFloat (loop s a).eeprom (s.eepromIndex + sizeofFloat)
      (loop s a).averageLight := by
    intro j hj
    rw [h3]
    simp only [sizeofFloat] at hj ⊢
    rw [if_pos (by omega)]
    congr 1
    omega
  refine ⟨hT, hL, ?_, ?_, h5, ?_, f6, f7, f4, f5, ⟨h1, h2⟩, ?_⟩
  · intro addr hout
    exact loop_eeprom_frame s a addr (by simpa [sizeofFloat] using hout)
  · rw [loop_cursor, if_pos h]
  · rw [h5, List.drop_left]
    simp [lineCount]
  · intro h245
    rw [← h245]
    exact hT

/-- Witness for C8: a cycle whose average temperature is 24.5 stores 24.5 in
bytes 0 to 3 and raises the alarm. -/
theorem C8_witness :
    (loop (sampleState (List.replicate 30 0) 785 0) (Analog.mk 0 0)).averageTemp = 24.5 ∧
    holdsFloat (loop (sampleState (List.replicate 30 0) 785 0) (Analog.mk 0 0)).eeprom 0 24.5 ∧
    alarmOn (loop (sampleState (List.replicate 30 0) 785 0) (Analog.mk 0 0)) := by
  have h1 : (loop (sampleState (List.replicate 30 0) 785 0) (Analog.mk 0 0)).averageTemp
      = 24.5 := by
    rw [(sampleState_average (List.replicate 30 0) 0 (List.replicate 29 0) _ _ _ rfl).1]
    norm_num [readTemperature]
  have h := C8_anomalous_cycle_appends_one_record (sampleState (List.replicate 30 0) 785 0)
    (Analog.mk 0 0) (by rw [h1]; norm_num)
  exact ⟨h1, h.2.2.2.2.2.2.2.2.2.2.2 h1, h.2.2.2.2.2.2.2.2.2.2.1⟩

/-! ## The light-level LEDs (C10) -/

/-- Pin levels after one LED write. -/
theorem lightLed_digital (s : State) (i p : Nat) :
    (lightLed s i).digital p =
      if p = ledPins.getD i 0 then decide (s.averageLight > ((i * 25 : Nat) : ℚ))
      else s.digital p := by
  unfold lightLed
  by_cases hp : p = ledPins.getD i 0
  · split
    · rename_i h
      simp only [digitalWrite, if_pos hp]
      exact (decide_eq_true h).symm
    · rename_i h
      simp only [digitalWrite, if_pos hp]
      exact (decide_eq_false h).symm
  · split <;> simp only [digitalWrite, if_neg hp]

/-- The anomaly check writes no pin but the red LED. -/
theorem checkAnomaly_digital_other (s : State) (p : Nat) (hp : p ≠ ledRedPin) :
    (checkAnomaly s).digital p = s.digital p := by
  by_cases h : s.averageTemp > 23
  · rw [(checkAnomaly_hot s h).1]
    exact if_neg hp
  · rw [(checkAnomaly_normal s h).1]
    exact if_neg hp

/-- Level of the four light LEDs after a cycle. -/
theorem loop_leds (s : State) (a : Analog) :
    (loop s a).digital 6 = decide ((loop s a).averageLight > 0) ∧
    (loop s a).digital 7 = decide ((loop s a).averageLight > 25) ∧
    (loop s a).digital 8 = decide ((loop s a).averageLight > 50) ∧
    (loop s a).digital 9 = decide ((loop s a).averageLight > 75) := by
  rw [(loop_averages s a).2]
  unfold loop
  rw [checkAnomaly_digital_other _ 6 (by decide), checkAnomaly_digital_other _ 7 (by decide),
    checkAnomaly_digital_other _ 8 (by decide), checkAnomaly_digital_other _ 9 (by decide)]
  simp only [driveLeds_unfold, lightLed_digital, lightLed_frame]
  simp [ledPins]

/-- C10: after every cycle, LED `i` of the four light LEDs is `HIGH` exactly
when that cycle's average light is above `25 * i`, and `LOW` otherwise; LED 0
is on for any positive average and off at or below 0; an average of 60 gives
on, on, on, off. -/
theorem C10_light_tiers (s : State) (a : Analog) :
    (∀ i, i < 4 → ((loop s a).digital (ledPins.getD i 0) = true ↔
      (loop s a).averageLight > 25 * (i : ℚ))) ∧
    (∀ i, i < 4 → ((loop s a).digital (ledPins.getD i 0) = false ↔
      ¬ (loop s a).averageLight > 25 * (i : ℚ))) ∧
    ((loop s a).digital (ledPins.getD 0 0) = true ↔ (loop s a).averageLight > 0) ∧
    ((loop s a).averageLight ≤ 0 → (loop s a).digital (ledPins.getD 0 0) = false) ∧
    ((loop s a).averageLight = 60 →
      ledPins.map (loop s a).digital = [true, true, true, false]) := by
  obtain ⟨h6, h7, h8, h9⟩ := loop_leds s a
  have key : ∀ i, i < 4 → (loop s a).digital (ledPins.getD i 0) =
      decide ((loop s a).averageLight > 25 * (i : ℚ)) := by
    intro i hi
    interval_cases i
    · simpa [ledPins] using h6
    · simpa [ledPins] using h7
    · simp only [ledPins, List.getD_cons_succ, List.getD_cons_zero, h8]; norm_num
    · simp only [ledPins, List.getD_cons_succ, List.getD_cons_zero, h9]; norm_num
  refine ⟨?_, ?_, ?_, ?_, ?_⟩
  · intro i hi
    rw [key i hi, decide_eq_true_iff]
  · intro i hi
    rw [key i hi, decide_eq_false_iff_not]
  · have := key 0 (by decide)
    rw [this, decide_eq_true_iff]
    simp
  · intro hle
    have := key 0 (by decide)
    rw [this, decide_eq_false_iff_not]
    simpa using hle
  · intro h60
    simp only [ledPins, List.map_cons, List.map_nil, h6, h7, h8, h9, h60]
    norm_num

/-- Witness for C10: thirty cycles with light reading 480 give an average
light of 60, and the four LEDs are on, on, on, off. -/
theorem C10_witness :
    (loop (run (startup (fun _ => EepromByte.old 0)) (List.replicate 29 (Analog.mk 0 480)))
      (Analog.mk 0 480)).averageLight = 60 ∧
    ledPins.map (loop (run (startup (fun _ => EepromByte.old 0))
      (List.replicate 29 (Analog.mk 0 480))) (Analog.mk 0 480)).digital
      = [true, true, true, false] ∧
    (loop (run (startup (fun _ => EepromByte.old 0)) (List.replicate 29 (Analog.mk 0 480)))
      (Analog.mk 0 480)).digital (ledPins.getD 2 0) = true :=
  ⟨by decide!,
   (C10_light_tiers _ (Analog.mk 0 480)).2.2.2.2 (by decide!),
   ((C10_light_tiers _ (Analog.mk 0 480)).1 2 (by decide)).mpr (by decide!)⟩

/-! ## Monotone light tiers (C11) -/

/-- The number of lit LEDs as a function of the average light. -/
theorem loop_activeTiers (s : State) (a : Analog) :
    activeTiers (loop s a) =
      if (loop s a).averageLight > 75 then 4
      else if (loop s a).averageLight > 50 then 3
      else if (loop s a).averageLight > 25 then 2
      else if (loop s a).averageLight > 0 then 1 else 0 := by
  obtain ⟨h6, h7, h8, h9⟩ := loop_leds s a
  simp only [activeTiers, ledPins, List.filter, h6, h7, h8, h9]
  by_cases c3 : (loop s a).averageLight > 75
  · have c2 : (loop s a).averageLight > 50 := by linarith
    have c1 : (loop s a).averageLight > 25 := by linarith
    have c0 : (loop s a).averageLight > 0 := by linarith
    simp [c0, c1, c2, c3]
  · by_cases c2 : (loop s a).averageLight > 50
    · have c1 : (loop s a).averageLight > 25 := by linarith
      have c0 : (loop s a).averageLight > 0 := by linarith
      simp [c0, c1, c2, c3]
    · by_cases c1 : (loop s a).averageLight > 25
      · have c0 : (loop s a).averageLight > 0 := by linarith
        simp [c0, c1, c2, c3]
      · by_cases c0 : (loop s a).averageLight > 0
        · simp [c0, c1, c2, c3]
        · simp [c0, c1, c2, c3]

/-- C11: after every cycle, a lit light LED `i` implies every lower LED
`j < i` is lit, so the lit LEDs are exactly LEDs `0` to `m - 1` for the number
`m` of lit LEDs; and of two cycles the one with the larger average light has
at least as many LEDs lit. -/
theorem C11_light_tiers_monotone (s : State) (a : Analog) (s2 : State) (a2 : Analog) :
    (∀ i j, j < i → i < 4 → (loop s a).digital (ledPins.getD i 0) = true →
      (loop s a).digital (ledPins.getD j 0) = true) ∧
    activeTiers (loop s a) ≤ 4 ∧
    (∀ i, i < 4 →
      ((loop s a).digital (ledPins.getD i 0) = true ↔ i < activeTiers (loop s a))) ∧
    ((loop s a).averageLight ≤ (loop s2 a2).averageLight →
      activeTiers (loop s a) ≤ activeTiers (loop s2 a2)) := by
  obtain ⟨h6, h7, h8, h9⟩ := loop_leds s a
  have hn := loop_activeTiers s a
  have hn2 := loop_activeTiers s2 a2
  have key : ∀ i, i < 4 → (loop s a).digital (ledPins.getD i 0) =
      decide ((loop s a).averageLight > 25 * (i : ℚ)) := by
    intro i hi
    interval_cases i
    · simpa [ledPins] using h6
    · simpa [ledPins] using h7
    · simp only [ledPins, List.getD_cons_succ, List.getD_cons_zero, h8]; norm_num
    · simp only [ledPins, List.getD_cons_succ, List.getD_cons_zero, h9]; norm_num
  refine ⟨?_, ?_, ?_, ?_⟩
  · intro i j hji hi hlit
    rw [key i hi, decide_eq_true_iff] at hlit
    rw [key j (by omega), decide_eq_true_iff]
    have : (j : ℚ) < (i : ℚ) := by exact_mod_cast hji
    linarith
  · rw [hn]
    split_ifs <;> omega
  · intro i hi
    rw [key i hi, decide_eq_true_iff, hn]
    interval_cases i <;> split_ifs <;> constructor <;> intro h <;>
      first | omega | (norm_num at h ⊢; linarith)
  · intro hle
    rw [hn, hn2]
    split_ifs <;> first | omega | linarith

/-- Witness for C11: thirty cycles with light reading 480 (average 60) light
three LEDs, thirty cycles with light reading 800 (average 100) light four; in
the first run LED 2 is lit and so is LED 0. -/
theorem C11_witness :
    (loop (run (startup (fun _ => EepromByte.old 0)) (List.replicate 29 (Analog.mk 0 480)))
      (Analog.mk 0 480)).averageLight ≤
    (loop (run (startup (fun _ => EepromByte.old 0)) (List.replicate 29 (Analog.mk 0 800)))
      (Analog.mk 0 800)).averageLight ∧
    activeTiers (loop (run (startup (fun _ => EepromByte.old 0))
      (List.replicate 29 (Analog.mk 0 480))) (Analog.mk 0 480)) ≤
    activeTiers (loop (run (startup (fun _ => EepromByte.old 0))
      (List.replicate 29 (Analog.mk 0 800))) (Analog.mk 0 800)) ∧
    (loop (run (startup (fun _ => EepromByte.old 0)) (List.replicate 29 (Analog.mk 0 480)))
      (Analog.mk 0 480)).digital (ledPins.getD 0 0) = true :=
  ⟨by decide!,
   (C11_light_tiers_monotone _ (Analog.mk 0 480) _ (Analog.mk 0 800)).2.2.2 (by decide!),
   (C11_light_tiers_monotone _ (Analog.mk 0 480) (startup (fun _ => EepromByte.old 0))
      (Analog.mk 0 0)).1 2 0 (by decide) (by decide) (by decide!)⟩

/-! ## The read index and the two channels (C12, C13) -/

/-- C12: after `k` cycles from startup `readIndex` is `k mod 30`, hence below
30 and inside both 30-element arrays, so every `tempReadings[readIndex]` and
`lightReadings[readIndex]` of the next `loop()` is in bounds; the next cycle
moves it to `readIndex + 1`, or to 0 from 29. -/
theorem C12_readIndex_in_bounds (rom : Nat → EepromByte) (inputs : List Analog) (a : Analog) :
    (run (startup rom) inputs).readIndex = inputs.length % 30 ∧
    (run (startup rom) inputs).readIndex < 30 ∧
    (run (startup rom) inputs).tempReadings.length = 30 ∧
    (run (startup rom) inputs).lightReadings.length = 30 ∧
    (run (startup rom) inputs).readIndex < (run (startup rom) inputs).tempReadings.length ∧
    (run (startup rom) inputs).readIndex < (run (startup rom) inputs).lightReadings.length ∧
    ((run (startup rom) inputs).readIndex = 29 →
      (loop (run (startup rom) inputs) a).readIndex = 0) ∧
    ((run (startup rom) inputs).readIndex < 29 →
      (loop (run (startup rom) inputs) a).readIndex =
        (run (startup rom) inputs).readIndex + 1) := by
  obtain ⟨hlt, hll, hr, _, _, _, _⟩ := run_filter_invariant rom inputs
  have hnext := (loop_filter (run (startup rom) inputs) a).2.2.1
  simp only [numReadings] at hlt hll hr hnext
  refine ⟨hr, by omega, hlt, hll, by omega, by omega, ?_, ?_⟩
  · intro h29
    rw [hnext, h29]
  · intro hlt29
    rw [hnext]
    omega

/-- Witness for C12: after 29 cycles the read index is 29 and the 30th cycle
wraps it to 0. -/
theorem C12_witness :
    (run (startup (fun _ => EepromByte.old 0)) (List.replicate 29 (Analog.mk 150 480))).readIndex
      = 29 ∧
    (loop (run (startup (fun _ => EepromByte.old 0)) (List.replicate 29 (Analog.mk 150 480)))
      (Analog.mk 150 480)).readIndex = 0 :=
  ⟨by decide!,
   (C12_readIndex_in_bounds (fun _ => EepromByte.old 0) (List.replicate 29 (Analog.mk 150 480))
      (Analog.mk 150 480)).2.2.2.2.2.2.1 (by decide!)⟩

/-- Two runs that start with equal temperature filters and read equal
temperature samples end with equal temperature filters. -/
theorem run_temp_channel (s1 s2 : State) (inputs1 inputs2 : List Analog)
    (hb : s1.tempReadings = s2.tempReadings) (hr : s1.readIndex = s2.readIndex)
    (ht : s1.totalTemp = s2.totalTemp) (ha : s1.averageTemp = s2.averageTemp)
    (hin : tempSamples inputs1 = tempSamples inputs2) :
    (run s1 inputs1).tempReadings = (run s2 inputs2).tempReadings ∧
    (run s1 inputs1).readIndex = (run s2 inputs2).readIndex ∧
    (run s1 inputs1).totalTemp = (run s2 inputs2).totalTemp ∧
    (run s1 inputs1).averageTemp = (run s2 inputs2).averageTemp := by
  induction inputs1 generalizing inputs2 s1 s2 with
  | nil =>
    cases inputs2 with
    | nil => exact ⟨hb, hr, ht, ha⟩
    | cons b rest => simp [tempSamples] at hin
  | cons a1 rest1 ih =>
    cases inputs2 with
    | nil => simp [tempSamples] at hin
    | cons a2 rest2 =>
      simp only [tempSamples, List.map_cons, List.cons.injEq] at hin
      obtain ⟨f1, _, f3, f4, _, f6, _⟩ := loop_filter s1 a1
      obtain ⟨g1, _, g3, g4, _, g6, _⟩ := loop_filter s2 a2
      have e1 : (loop s1 a1).tempReadings = (loop s2 a2).tempReadings := by
        rw [f1, g1, hb, hr, hin.1]
      have e3 : (loop s1 a1).readIndex = (loop s2 a2).readIndex := by rw [f3, g3, hr]
      have e4 : (loop s1 a1).totalTemp = (loop s2 a2).totalTemp := by
        rw [f4, g4, hb, hr, ht, hin.1]
      have e6 : (loop s1 a1).averageTemp = (loop s2 a2).averageTemp := by rw [f6, g6, e4]
      exact ih (loop s1 a1) (loop s2 a2) rest2 e1 e3 e4 e6 hin.2

/-- Two runs that start with equal light filters and read equal light samples
end with equal light filters. -/
theorem run_light_channel (s1 s2 : State) (inputs1 inputs2 : List Analog)
    (hb : s1.lightReadings = s2.lightReadings) (hr : s1.readIndex = s2.readIndex)
    (ht : s1.totalLight = s2.totalLight) (ha : s1.averageLight = s2.averageLight)
    (hin : lightSamples inputs1 = lightSamples inputs2) :
    (run s1 inputs1).lightReadings = (run s2 inputs2).lightReadings ∧
    (run s1 inputs1).readIndex = (run s2 inputs2).readIndex ∧
    (run s1 inputs1).totalLight = (run s2 inputs2).totalLight ∧
    (run s1 inputs1).averageLight = (run s2 inputs2).averageLight := by
  induction inputs1 generalizing inputs2 s1 s2 with
  | nil =>
    cases inputs2 with
    | nil => exact ⟨hb, hr, ht, ha⟩
    | cons b rest => simp [lightSamples] at hin
  | cons a1 rest1 ih =>
    cases inputs2 with
    | nil => simp [lightSamples] at hin
    | cons a2 rest2 =>
      simp only [lightSamples, List.map_cons, List.cons.injEq] at hin
      obtain ⟨_, f2, f3, _, f5, _, f7⟩ := loop_filter s1 a1
      obtain ⟨_, g2, g3, _, g5, _, g7⟩ := loop_filter s2 a2
      have e2 : (loop s1 a1).lightReadings = (loop s2 a2).lightReadings := by
        rw [f2, g2, hb, hr, hin.1]
      have e3 : (loop s1 a1).readIndex = (loop s2 a2).readIndex := by rw [f3, g3, hr]
      have e5 : (loop s1 a1).totalLight = (loop s2 a2).totalLight := by
        rw [f5, g5, hb, hr, ht, hin.1]
      have e7 : (loop s1 a1).averageLight = (loop s2 a2).averageLight := by rw [f7, g7, e5]
      exact ih (loop s1 a1) (loop s2 a2) rest2 e2 e3 e5 e7 hin.2

/-- The averages are 0 at startup. -/
theorem startup_averages (rom : Nat → EepromByte) :
    (startup rom).averageTemp = 0 ∧ (startup rom).averageLight = 0 := by
  unfold startup setup
  simp only [lcdDo]
  have h : ∀ (is : List Nat) (s : State),
      (is.foldl clearReading s).averageTemp = s.averageTemp ∧
      (is.foldl clearReading s).averageLight = s.averageLight := by
    intro is
    induction is with
    | nil => intro s; exact ⟨rfl, rfl⟩
    | cons i is ih => intro s; exact ih (clearReading s i)
  exact h _ _

/-- C13: two runs from startup that read the same temperature samples have,
after every number `n` of cycles, the same temperature buffer, `totalTemp` and
`averageTemp`, whatever light samples each of them reads; and two runs that
read the same light samples have the same light buffer, `totalLight` and
`averageLight`, whatever temperature samples they read. -/
theorem C13_channels_independent (rom1 rom2 : Nat → EepromByte)
    (inputs1 inputs2 : List Analog) (n : Nat) :
    (tempSamples inputs1 = tempSamples inputs2 →
      (run (startup rom1) (inputs1.take n)).tempReadings =
        (run (startup rom2) (inputs2.take n)).tempReadings ∧
      (run (startup rom1) (inputs1.take n)).totalTemp =
        (run (startup rom2) (inputs2.take n)).totalTemp ∧
      (run (startup rom1) (inputs1.take n)).averageTemp =
        (run (startup rom2) (inputs2.take n)).averageTemp) ∧
    (lightSamples inputs1 = lightSamples inputs2 →
      (run (startup rom1) (inputs1.take n)).lightReadings =
        (run (startup rom2) (inputs2.take n)).lightReadings ∧
      (run (startup rom1) (inputs1.take n)).totalLight =
        (run (startup rom2) (inputs2.take n)).totalLight ∧
      (run (startup rom1) (inputs1.take n)).averageLight =
        (run (startup rom2) (inputs2.take n)).averageLight) := by
  obtain ⟨a1, a2, a3, a4, a5, _, _, _⟩ := startup_fields rom1
  obtain ⟨b1, b2, b3, b4, b5, _, _, _⟩ := startup_fields rom2
  obtain ⟨c1, c2⟩ := startup_averages rom1
  obtain ⟨d1, d2⟩ := startup_averages rom2
  constructor
  · intro h
    have hn : tempSamples (inputs1.take n) = tempSamples (inputs2.take n) := by
      simp only [tempSamples, List.map_take] at h ⊢
      rw [h]
    obtain ⟨e1, _, e3, e4⟩ := run_temp_channel (startup rom1) (startup rom2) _ _
      (by rw [a1, b1]) (by rw [a3, b3]) (by rw [a4, b4]) (by rw [c1, d1]) hn
    exact ⟨e1, e3, e4⟩
  · intro h
    have hn : lightSamples (inputs1.take n) = lightSamples (inputs2.take n) := by
      simp only [lightSamples, List.map_take] at h ⊢
      rw [h]
    obtain ⟨e1, _, e3, e4⟩ := run_light_channel (startup rom1) (startup rom2) _ _
      (by rw [a2, b2]) (by rw [a3, b3]) (by rw [a5, b5]) (by rw [c2, d2]) hn
    exact ⟨e1, e3, e4⟩

/-- Witness for C13: two runs read the temperatures 150 and 200 but different
light values; their average temperatures agree and their average lights
differ. -/
theorem C13_witness :
    (run (startup (fun _ => EepromByte.old 0)) [Analog.mk 150 0, Analog.mk 200 10]).averageTemp =
      (run (startup (fun _ => EepromByte.old 7))
        [Analog.mk 150 800, Analog.mk 200 1023]).averageTemp ∧
    (run (startup (fun _ => EepromByte.old 0)) [Analog.mk 150 0, Analog.mk 200 10]).averageLight ≠
      (run (startup (fun _ => EepromByte.old 7))
        [Analog.mk 150 800, Analog.mk 200 1023]).averageLight :=
  ⟨((C13_channels_independent (fun _ => EepromByte.old 0) (fun _ => EepromByte.old 7)
      [Analog.mk 150 0, Analog.mk 200 10] [Analog.mk 150 800, Analog.mk 200 1023] 2).1
      (by decide!)).2.2,
   by decide!⟩

/-! ## The sensor conversions (C14, C15) -/

/-- Closed forms of the two conversions. -/
theorem read_closed_forms (r : Int) :
    readTemperature r = 500 / 1023 * (r : ℚ) - 50 ∧ readLight r = (r : ℚ) / 8 := by
  constructor
  · simp only [readTemperature]; norm_num; ring
  · simp only [readLight]; norm_num; ring

/-- C14: for every raw reading `r`, `readTemperature` returns
`((r / 1023) * 5 - 0.5) * 100` and `readLight` returns `(r / 800) * 100`; both
are linear in `r` and nothing is clamped, so over `0 ≤ r ≤ 1023` the
temperature runs from -50 (at 0) to 450 (at 1023) and the light from 0 to
127.875. -/
theorem C14_conversion_formulas (r : Int) :
    readTemperature r = (((r : ℚ) / 1023) * 5 - 0.5) * 100 ∧
    readLight r = ((r : ℚ) / 800) * 100 ∧
    readTemperature r = 500 / 1023 * (r : ℚ) + readTemperature 0 ∧
    readLight r = 1 / 8 * (r : ℚ) + readLight 0 ∧
    (0 ≤ r → r ≤ 1023 → -50 ≤ readTemperature r ∧ readTemperature r ≤ 450 ∧
      0 ≤ readLight r ∧ readLight r ≤ 127.875) ∧
    readTemperature 0 = -50 ∧ readTemperature 1023 = 450 ∧
    readLight 0 = 0 ∧ readLight 1023 = 127.875 := by
  obtain ⟨hT, hL⟩ := read_closed_forms r
  obtain ⟨hT0, hL0⟩ := read_closed_forms 0
  obtain ⟨hT1, hL1⟩ := read_closed_forms 1023
  refine ⟨?_, ?_, ?_, ?_, ?_, ?_, ?_, ?_, ?_⟩
  · rw [hT]; norm_num; ring
  · rw [hL]; ring
  · rw [hT, hT0]; norm_num; ring
  · rw [hL, hL0]; norm_num; ring
  · intro h0 h1
    have h0q : (0 : ℚ) ≤ (r : ℚ) := by exact_mod_cast h0
    have h1q : (r : ℚ) ≤ 1023 := by exact_mod_cast h1
    rw [hT, hL]
    refine ⟨by linarith, ?_, by linarith, ?_⟩
    · linarith
    · norm_num; linarith
  · rw [hT0]; norm_num
  · rw [hT1]; norm_num
  · rw [hL0]; norm_num
  · rw [hL1]; norm_num

/-- Witness for C14: the raw reading 512 lies in range and converts to values
inside the stated intervals. -/
theorem C14_witness :
    -50 ≤ readTemperature 512 ∧ readTemperature 512 ≤ 450 ∧
    0 ≤ readLight 512 ∧ readLight 512 ≤ 127.875 :=
  (C14_conversion_formulas 512).2.2.2.2.1 (by decide) (by decide)

/-- Counterexample for C15: no raw sample in `0..1023` makes `readLight`
negative, so the two existence statements cannot both hold. -/
theorem C15_counterexample :
    ¬ ((∃ r : Int, 0 ≤ r ∧ r ≤ 1023 ∧ readLight r > 100) ∧
       (∃ r : Int, 0 ≤ r ∧ r ≤ 1023 ∧ readLight r < 0)) := by
  rintro ⟨_, r, h0, _, hneg⟩
  rw [(read_closed_forms r).2] at hneg
  have h0q : (0 : ℚ) ≤ (r : ℚ) := by exact_mod_cast h0
  linarith

/-- C15, amended: the light percentage is left unclipped.  Some raw sample in
`0..1023` makes `readLight` exceed 100 (every sample above 800 does, 1023
giving 127.875), but no raw sample in `0..1023` makes it negative: the result
is negative exactly for a negative raw value. -/
theorem C15_light_exceeds_100_never_negative :
    (∃ r : Int, 0 ≤ r ∧ r ≤ 1023 ∧ readLight r > 100) ∧
    (∀ r : Int, 0 ≤ r → r ≤ 1023 → (readLight r > 100 ↔ 800 < r)) ∧
    (∀ r : Int, 0 ≤ r → r ≤ 1023 → ¬ readLight r < 0) ∧
    (∀ r : Int, readLight r < 0 ↔ r < 0) := by
  have key : ∀ r : Int, readLight r = (r : ℚ) / 8 := fun r => (read_closed_forms r).2
  refine ⟨⟨1023, by decide, by decide, ?_⟩, ?_, ?_, ?_⟩
  · rw [key]; norm_num
  · intro r _ _
    rw [key]
    constructor
    · intro h
      have : (800 : ℚ) < (r : ℚ) := by linarith
      exact_mod_cast this
    · intro h
      have : (800 : ℚ) < (r : ℚ) := by exact_mod_cast h
      linarith
  · intro r h0 _ hneg
    rw [key] at hneg
    have h0q : (0 : ℚ) ≤ (r : ℚ) := by exact_mod_cast h0
    linarith
  · intro r
    rw [key]
    constructor
    · intro h
      have : (r : ℚ) < 0 := by linarith
      exact_mod_cast this
    · intro h
      have : (r : ℚ) < 0 := by exact_mod_cast h
      linarith

/-! ## Buffer contents (C16) -/

/-- Reading any position after one in-range write. -/
theorem getD_set (l : List ℚ) (r i : Nat) (x : ℚ) (h : r < l.length) :
    (l.set r x).getD i 0 = if i = r then x else l.getD i 0 := by
  by_cases hi : i = r
  · subst hi
    rw [if_pos rfl, getD_set_self l i x h]
  · rw [if_neg hi]
    simp only [List.getD_eq_getElem?_getD]
    rw [List.getElem?_set_ne (Ne.symm hi)]

/-- One push on one channel, slot by slot: slots not reached yet stay 0 and
each of the last 30 samples sits in the slot given by its position modulo 30. -/
theorem buffer_step (buf xs : List ℚ) (x : ℚ) (hlen : buf.length = 30)
    (hzero : ∀ i, xs.length ≤ i → buf.getD i 0 = 0)
    (hrec : ∀ m, m < xs.length → xs.length ≤ m + 30 → buf.getD (m % 30) 0 = xs.getD m 0) :
    (∀ i, xs.length + 1 ≤ i → (buf.set (xs.length % 30) x).getD i 0 = 0) ∧
    (∀ m, m < xs.length + 1 → xs.length + 1 ≤ m + 30 →
      (buf.set (xs.length % 30) x).getD (m % 30) 0 = (xs ++ [x]).getD m 0) := by
  have hr : xs.length % 30 < buf.length := by rw [hlen]; exact Nat.mod_lt _ (by decide)
  constructor
  · intro i hi
    rw [getD_set buf _ i x hr, if_neg (by omega)]
    exact hzero i (by omega)
  · intro m hm hrecent
    rw [getD_set buf _ _ x hr]
    by_cases hlt : m < xs.length
    · rw [if_neg (by omega), hrec m hlt (by omega), List.getD_append _ _ _ _ hlt]
    · have hmeq : m = xs.length := by omega
      subst hmeq
      rw [if_pos rfl, List.getD_append_right _ _ _ _ (le_refl _)]
      simp

/-- Contents of both buffers after a run from startup. -/
theorem run_buffers (rom : Nat → EepromByte) (inputs : List Analog) :
    (∀ i, inputs.length ≤ i → (run (startup rom) inputs).tempReadings.getD i 0 = 0) ∧
    (∀ m, m < inputs.length → inputs.length ≤ m + 30 →
      (run (startup rom) inputs).tempReadings.getD (m % 30) 0 = (tempSamples inputs).getD m 0) ∧
    (∀ i, inputs.length ≤ i → (run (startup rom) inputs).lightReadings.getD i 0 = 0) ∧
    (∀ m, m < inputs.length → inputs.length ≤ m + 30 →
      (run (startup rom) inputs).lightReadings.getD (m % 30) 0 =
        (lightSamples inputs).getD m 0) := by
  induction inputs using List.reverseRecOn with
  | nil =>
    obtain ⟨h1, h2, _⟩ := startup_fields rom
    have e1 : (run (startup rom) []).tempReadings = List.replicate numReadings 0 := h1
    have e2 : (run (startup rom) []).lightReadings = List.replicate numReadings 0 := h2
    rw [e1, e2]
    refine ⟨?_, ?_, ?_, ?_⟩
    · intro i _; simp only [List.getD_eq_getElem?_getD, List.getElem?_replicate]; split <;> rfl
    · intro m hm; simp at hm
    · intro i _; simp only [List.getD_eq_getElem?_getD, List.getElem?_replicate]; split <;> rfl
    · intro m hm; simp at hm
  | append_singleton l a ih =>
    obtain ⟨z1, r1, z2, r2⟩ := ih
    obtain ⟨hlt, hll, hr, _, _, _, _⟩ := run_filter_invariant rom l
    obtain ⟨f1, f2, _⟩ := loop_filter (run (startup rom) l) a
    simp only [numReadings] at hlt hll hr
    have ht := buffer_step _ (tempSamples l) (readTemperature a.temp) hlt
      (by simpa [tempSamples] using z1) (by simpa [tempSamples] using r1)
    have hl := buffer_step _ (lightSamples l) (readLight a.light) hll
      (by simpa [lightSamples] using z2) (by simpa [lightSamples] using r2)
    rw [run_snoc, f1, f2, hr]
    simp only [tempSamples, lightSamples, List.length_map, List.map_append, List.map_cons,
      List.map_nil, List.length_append, List.length_singleton] at ht hl ⊢
    exact ⟨ht.1, ht.2, hl.1, hl.2⟩

/-- C16: after `k` cycles from startup, slot `i` of `tempReadings` holds the
sample read in the latest cycle `j` (counted from 1) with `(j - 1) mod 30 = i`,
or 0 when there has been no such cycle; the next cycle writes its sample into
the slot at the old `readIndex`, which for `k ≥ 30` held the oldest of the last
30 samples, and leaves every other slot as it was.  The same holds for
`lightReadings`.  (The sample of cycle `j` is entry `j - 1` of the sample
list.) -/
theorem C16_buffer_contents (rom : Nat → EepromByte) (inputs : List Analog) (a : Analog) :
    (∀ i j, i < 30 → 1 ≤ j → j ≤ inputs.length → (j - 1) % 30 = i →
      (∀ j', 1 ≤ j' → j' ≤ inputs.length → (j' - 1) % 30 = i → j' ≤ j) →
      (run (startup rom) inputs).tempReadings.getD i 0 = (tempSamples inputs).getD (j - 1) 0 ∧
      (run (startup rom) inputs).lightReadings.getD i 0 =
        (lightSamples inputs).getD (j - 1) 0) ∧
    (∀ i, i < 30 → (∀ j, 1 ≤ j → j ≤ inputs.length → (j - 1) % 30 ≠ i) →
      (run (startup rom) inputs).tempReadings.getD i 0 = 0 ∧
      (run (startup rom) inputs).lightReadings.getD i 0 = 0) ∧
    (loop (run (startup rom) inputs) a).tempReadings.getD
      (run (startup rom) inputs).readIndex 0 = readTemperature a.temp ∧
    (loop (run (startup rom) inputs) a).lightReadings.getD
      (run (startup rom) inputs).readIndex 0 = readLight a.light ∧
    (∀ i, i ≠ (run (startup rom) inputs).readIndex →
      (loop (run (startup rom) inputs) a).tempReadings.getD i 0 =
        (run (startup rom) inputs).tempReadings.getD i 0 ∧
      (loop (run (startup rom) inputs) a).lightReadings.getD i 0 =
        (run (startup rom) inputs).lightReadings.getD i 0) ∧
    (30 ≤ inputs.length →
      (run (startup rom) inputs).tempReadings.getD (run (startup rom) inputs).readIndex 0 =
        (tempSamples inputs).getD (inputs.length - 30) 0 ∧
      (run (startup rom) inputs).lightReadings.getD (run (startup rom) inputs).readIndex 0 =
        (lightSamples inputs).getD (inputs.length - 30) 0) := by
  obtain ⟨z1, r1, z2, r2⟩ := run_buffers rom inputs
  obtain ⟨hlt, hll, hr, _, _, _, _⟩ := run_filter_invariant rom inputs
  obtain ⟨f1, f2, _⟩ := loop_filter (run (startup rom) inputs) a
  simp only [numReadings] at hlt hll hr
  have hrt : (run (startup rom) inputs).readIndex <
      (run (startup rom) inputs).tempReadings.length := by
    omega
  have hrl : (run (startup rom) inputs).readIndex <
      (run (startup rom) inputs).lightReadings.length := by
    omega
  refine ⟨?_, ?_, ?_, ?_, ?_, ?_⟩
  · intro i j hi h1 hj hmod hmax
    have hrecent : inputs.length ≤ (j - 1) + 30 := by
      by_contra hgt
      have := hmax (j + 30) (by omega) (by omega) (by omega)
      omega
    have ht := r1 (j - 1) (by omega) hrecent
    have hl := r2 (j - 1) (by omega) hrecent
    rw [hmod] at ht hl
    exact ⟨ht, hl⟩
  · intro i hi hnone
    have hk : inputs.length ≤ i := by
      by_contra hlt'
      exact hnone (i + 1) (by omega) (by omega) (by simp; omega)
    exact ⟨z1 i hk, z2 i hk⟩
  · rw [f1, getD_set_self _ _ _ hrt]
  · rw [f2, getD_set_self _ _ _ hrl]
  · intro i hne
    rw [f1, f2, getD_set _ _ i _ hrt, getD_set _ _ i _ hrl, if_neg hne, if_neg hne]
    exact ⟨rfl, rfl⟩
  · intro h30
    have ht := r1 (inputs.length - 30) (by omega) (by omega)
    have hl := r2 (inputs.length - 30) (by omega) (by omega)
    have hidx : (inputs.length - 30) % 30 = (run (startup rom) inputs).readIndex := by omega
    rw [hidx] at ht hl
    exact ⟨ht, hl⟩

/-- Witness for C16: after 31 cycles (one reading of 1023, then thirty of 150)
slot 0 holds the sample of cycle 31 and slot 1 still holds that of cycle 2. -/
theorem C16_witness :
    (run (startup (fun _ => EepromByte.old 0))
      (Analog.mk 1023 0 :: List.replicate 30 (Analog.mk 150 480))).tempReadings.getD 0 0
      = readTemperature 150 ∧
    (run (startup (fun _ => EepromByte.old 0))
      (Analog.mk 1023 0 :: List.replicate 30 (Analog.mk 150 480))).lightReadings.getD 1 0
      = readLight 480 :=
  ⟨by
    have h := ((C16_buffer_contents (fun _ => EepromByte.old 0)
      (Analog.mk 1023 0 :: List.replicate 30 (Analog.mk 150 480)) (Analog.mk 0 0)).1
      0 31 (by decide) (by decide) (by decide) (by decide)
      (by intro j' _ h2 h3; simp at h2; omega)).1
    rw [h]; decide!,
   by
    have h := ((C16_buffer_contents (fun _ => EepromByte.old 0)
      (Analog.mk 1023 0 :: List.replicate 30 (Analog.mk 150 480)) (Analog.mk 0 0)).1
      1 2 (by decide) (by decide) (by decide) (by decide)
      (by intro j' _ h2 h3; simp at h2; omega)).2
    rw [h]; decide!⟩

/-! ## Constant readings (C17, C18) -/

/-- After at least one cycle the alarm is on exactly when the last average
temperature is above 23, and off exactly when it is not. -/
theorem run_alarm (s : State) (inputs : List Analog) (h : inputs ≠ []) :
    (alarmOn (run s inputs) ↔ (run s inputs).averageTemp > 23) ∧
    (alarmOff (run s inputs) ↔ ¬ (run s inputs).averageTemp > 23) := by
  induction inputs using List.reverseRecOn with
  | nil => exact absurd rfl h
  | append_singleton l a _ =>
    rw [run_snoc]
    obtain ⟨hon, hoff⟩ := loop_alarm (run s l) a
    constructor
    · constructor
      · intro halarm
        by_contra hn
        have h1 := (hoff hn).1
        rw [halarm.1] at h1
        exact absurd h1 (by decide)
      · exact hon
    · constructor
      · intro halarm hgt
        have h1 := (hon hgt).1
        rw [halarm.1] at h1
        exact absurd h1 (by decide)
      · exact hoff

/-- A run whose temperature samples all equal `T`. -/
theorem tempSamples_constant (inputs : List Analog) (T : ℚ)
    (h : ∀ x ∈ inputs, readTemperature x.temp = T) :
    tempSamples inputs = List.replicate inputs.length T := by
  rw [List.eq_replicate_iff]
  refine ⟨by simp [tempSamples], ?_⟩
  intro b hb
  simp only [tempSamples, List.mem_map] at hb
  obtain ⟨x, hx, rfl⟩ := hb
  exact h x hx

/-- The converted temperature is above 23 exactly from raw reading 150 on. -/
theorem readTemperature_threshold (r : Int) : readTemperature r > 23 ↔ 150 ≤ r := by
  rw [(read_closed_forms r).1]
  constructor
  · intro h
    have h1 : (149 : ℚ) < (r : ℚ) := by linarith
    have h2 : (149 : Int) < r := by exact_mod_cast h1
    omega
  · intro h
    have h1 : (150 : ℚ) ≤ (r : ℚ) := by exact_mod_cast h
    linarith

/-- C17: if every temperature sample from startup equals `T`, then after `k`
cycles, `1 ≤ k ≤ 30`, the average temperature is `k * T / 30` and the alarm is
on exactly when `k * T > 690`.  In the first cycle after startup, for every raw
reading in `0..1023`, the alarm is off and nothing is logged: EEPROM, cursor
and serial output stay as they were. -/
theorem C17_startup_alarm_delay (rom : Nat → EepromByte) (inputs : List Analog) (T : ℚ)
    (a : Analog) :
    ((∀ x ∈ inputs, readTemperature x.temp = T) → 1 ≤ inputs.length → inputs.length ≤ 30 →
      (run (startup rom) inputs).averageTemp = (inputs.length : ℚ) * T / 30 ∧
      (alarmOn (run (startup rom) inputs) ↔ (inputs.length : ℚ) * T > 690) ∧
      (alarmOff (run (startup rom) inputs) ↔ ¬ (inputs.length : ℚ) * T > 690)) ∧
    (0 ≤ a.temp → a.temp ≤ 1023 →
      alarmOff (loop (startup rom) a) ∧ (loop (startup rom) a).eeprom = rom ∧
      (loop (startup rom) a).eepromIndex = 0 ∧ (loop (startup rom) a).serial = [] ∧
      records (startup rom) [a] = []) := by
  have first : ∀ (l : List Analog) (U : ℚ), (∀ x ∈ l, readTemperature x.temp = U) →
      1 ≤ l.length → l.length ≤ 30 →
      (run (startup rom) l).averageTemp = (l.length : ℚ) * U / 30 := by
    intro l U hconst h1 h30
    have hne : l ≠ [] := by
      intro h; rw [h] at h1; simp at h1
    obtain ⟨_, _, _, _, _, htt, _⟩ := run_filter_invariant rom l
    rw [(run_average (startup rom) l hne).1, htt,
      window_of_short _ (by simpa [tempSamples, numReadings] using h30),
      tempSamples_constant l U hconst]
    simp
  constructor
  · intro hconst h1 h30
    have hne : inputs ≠ [] := by
      intro h; rw [h] at h1; simp at h1
    have havg := first inputs T hconst h1 h30
    obtain ⟨hon, hoff⟩ := run_alarm (startup rom) inputs hne
    have hiff : (run (startup rom) inputs).averageTemp > 23 ↔
        (inputs.length : ℚ) * T > 690 := by
      rw [havg]
      constructor <;> intro h <;> linarith
    exact ⟨havg, hon.trans hiff, hoff.trans (not_congr hiff)⟩
  · intro h0 h1023
    have havg : (loop (startup rom) a).averageTemp = readTemperature a.temp / 30 := by
      have := first [a] (readTemperature a.temp) (by simp) (by simp) (by simp)
      simpa [run] using this
    have hle : readTemperature a.temp ≤ 450 := by
      rw [(read_closed_forms a.temp).1]
      have : (a.temp : ℚ) ≤ 1023 := by exact_mod_cast h1023
      linarith
    have hnot : ¬ (loop (startup rom) a).averageTemp > 23 := by
      rw [havg]; intro h; linarith
    obtain ⟨n1, n2, n3, n4, n5, _, _⟩ := loop_normal (startup rom) a hnot
    obtain ⟨_, _, _, _, _, s6, s7, s8⟩ := startup_fields rom
    refine ⟨⟨n1, n2⟩, by rw [n3, s7], by rw [n4, s6], by rw [n5, s8], ?_⟩
    simp [records, hnot]

/-- Witness for C17: with raw reading 1023 (450 degrees) in every cycle the
alarm is off after the first cycle and on after the second, as `2 * 450 > 690`. -/
theorem C17_witness :
    alarmOff (loop (startup (fun _ => EepromByte.old 0)) (Analog.mk 1023 0)) ∧
    alarmOn (run (startup (fun _ => EepromByte.old 0)) (List.replicate 2 (Analog.mk 1023 0))) :=
  ⟨((C17_startup_alarm_delay (fun _ => EepromByte.old 0) [] 0 (Analog.mk 1023 0)).2
      (by decide) (by decide)).1,
   (((C17_startup_alarm_delay (fun _ => EepromByte.old 0) (List.replicate 2 (Analog.mk 1023 0))
      450 (Analog.mk 0 0)).1
      (by intro x hx; rw [List.eq_of_mem_replicate hx]; decide!)
      (by decide) (by decide)).2.1).mpr (by decide!)⟩

/-- The last 30 samples of a run that ends with at least 30 cycles reading
the same raw temperature. -/
theorem window_constant_tail (pre tail : List Analog) (T : ℚ)
    (hconst : ∀ x ∈ tail, readTemperature x.temp = T) (hlen : 30 ≤ tail.length) :
    window (tempSamples (pre ++ tail)) = List.replicate 30 T := by
  rw [window_of_long _ (by simp [tempSamples, numReadings]; omega)]
  simp only [tempSamples, List.map_append, List.length_append, List.length_map, numReadings]
  have ht : List.map (fun a => readTemperature a.temp) tail = List.replicate tail.length T :=
    tempSamples_constant tail T hconst
  rw [List.drop_append_eq_append_drop, ht, List.drop_replicate, List.length_map,
    List.drop_eq_nil_of_le (by simp; omega), List.nil_append]
  congr 1
  omega

/-- C18: if the raw temperature reading is the same `r` in `0..1023` for at
least 30 consecutive cycles (the cycles of `mid`, at least 29, and the cycle
reading `a`), after any earlier cycles `pre`, then in that last cycle the
average temperature is `((r * 5 / 1023) - 0.5) * 100`, the alarm is on and a
record is appended exactly when `r ≥ 150`, and for `r ≤ 149` the alarm is off
and nothing is appended. -/
theorem C18_raw_alarm_threshold (rom : Nat → EepromByte) (pre mid : List Analog) (a : Analog)
    (r : Int) (h0 : 0 ≤ r) (h1023 : r ≤ 1023) (hmid : ∀ x ∈ mid, x.temp = r)
    (ha : a.temp = r) (hlen : 29 ≤ mid.length) :
    (loop (run (startup rom) (pre ++ mid)) a).averageTemp =
      (((r : ℚ) * 5 / 1023) - 0.5) * 100 ∧
    (alarmOn (loop (run (startup rom) (pre ++ mid)) a) ↔ 150 ≤ r) ∧
    (records (run (startup rom) (pre ++ mid)) [a] =
      [((loop (run (startup rom) (pre ++ mid)) a).averageTemp,
        (loop (run (startup rom) (pre ++ mid)) a).averageLight)] ↔ 150 ≤ r) ∧
    (150 ≤ r →
      holdsFloat (loop (run (startup rom) (pre ++ mid)) a).eeprom
        (run (startup rom) (pre ++ mid)).eepromIndex
        (loop (run (startup rom) (pre ++ mid)) a).averageTemp) ∧
    (r ≤ 149 → alarmOff (loop (run (startup rom) (pre ++ mid)) a) ∧
      records (run (startup rom) (pre ++ mid)) [a] = [] ∧
      (loop (run (startup rom) (pre ++ mid)) a).eeprom =
        (run (startup rom) (pre ++ mid)).eeprom ∧
      (loop (run (startup rom) (pre ++ mid)) a).eepromIndex =
        (run (startup rom) (pre ++ mid)).eepromIndex) := by
  have hconst : ∀ x ∈ mid ++ [a], readTemperature x.temp = readTemperature r := by
    intro x hx
    rcases List.mem_append.mp hx with hx | hx
    · rw [hmid x hx]
    · rw [List.mem_singleton.mp hx, ha]
  have hrun : loop (run (startup rom) (pre ++ mid)) a =
      run (startup rom) (pre ++ (mid ++ [a])) := by
    rw [← List.append_assoc, run_snoc]
  have havg : (loop (run (startup rom) (pre ++ mid)) a).averageTemp = readTemperature r := by
    rw [hrun]
    obtain ⟨_, _, _, _, _, htt, _⟩ := run_filter_invariant rom (pre ++ (mid ++ [a]))
    rw [(run_average (startup rom) _ (by simp)).1, htt,
      window_constant_tail pre (mid ++ [a]) _ hconst (by simp; omega),
      List.sum_replicate, nsmul_eq_mul]
    push_cast
    ring
  have hthr := readTemperature_threshold r
  obtain ⟨hon, hoff⟩ := loop_alarm (run (startup rom) (pre ++ mid)) a
  have halarm : alarmOn (loop (run (startup rom) (pre ++ mid)) a) ↔ 150 ≤ r := by
    constructor
    · intro hal
      by_contra hn
      have h1 := (hoff (by rw [havg, hthr]; exact hn)).1
      rw [hal.1] at h1
      exact absurd h1 (by decide)
    · intro h
      exact hon (by rw [havg, hthr]; exact h)
  refine ⟨?_, halarm, ?_, ?_, ?_⟩
  · rw [havg, (read_closed_forms r).1]; norm_num; ring
  · simp only [records, List.append_nil]
    constructor
    · intro h
      by_contra hn
      rw [if_neg (by rw [havg, hthr]; exact hn)] at h
      exact absurd h (by simp)
    · intro h
      rw [if_pos (by rw [havg, hthr]; exact h)]
  · intro h
    have hgt : (loop (run (startup rom) (pre ++ mid)) a).averageTemp > 23 := by
      rw [havg, hthr]; exact h
    obtain ⟨_, _, h3, _, _⟩ := loop_hot _ a hgt
    intro j hj
    rw [h3]
    simp only [sizeofFloat] at hj ⊢
    rw [if_neg (by omega), if_pos (by omega)]
    congr 1
    omega
  · intro h
    have hnot : ¬ (loop (run (startup rom) (pre ++ mid)) a).averageTemp > 23 := by
      rw [havg, hthr]; omega
    obtain ⟨n1, n2, n3, n4, _⟩ := loop_normal _ a hnot
    refine ⟨⟨n1, n2⟩, ?_, n3, n4⟩
    simp [records, hnot]

/-- Witness for C18: after one cycle reading 0, thirty cycles reading 150 end
with the alarm on, and thirty cycles reading 149 end with the alarm off. -/
theorem C18_witness :
    alarmOn (loop (run (startup (fun _ => EepromByte.old 0))
      ([Analog.mk 0 0] ++ List.replicate 29 (Analog.mk 150 480))) (Analog.mk 150 480)) ∧
    alarmOff (loop (run (startup (fun _ => EepromByte.old 0))
      ([Analog.mk 0 0] ++ List.replicate 29 (Analog.mk 149 480))) (Analog.mk 149 480)) :=
  ⟨((C18_raw_alarm_threshold (fun _ => EepromByte.old 0) [Analog.mk 0 0]
      (List.replicate 29 (Analog.mk 150 480)) (Analog.mk 150 480) 150 (by decide) (by decide)
      (by intro x hx; rw [List.eq_of_mem_replicate hx]) rfl (by simp)).2.1).mpr (by decide),
   ((C18_raw_alarm_threshold (fun _ => EepromByte.old 0) [Analog.mk 0 0]
      (List.replicate 29 (Analog.mk 149 480)) (Analog.mk 149 480) 149 (by decide) (by decide)
      (by intro x hx; rw [List.eq_of_mem_replicate hx]) rfl (by simp)).2.2.2.2 (by decide)).1⟩

/-! ## Normal cycles (C9) -/

/-- One LED write sends nothing to the LCD. -/
theorem lightLed_lcd (s : State) (i : Nat) : (lightLed s i).lcd = s.lcd := by
  unfold lightLed
  split <;> rfl

/-- The anomaly check sends nothing to the LCD. -/
theorem checkAnomaly_lcd (s : State) : (checkAnomaly s).lcd = s.lcd := by
  unfold checkAnomaly
  split
  · simp only [digitalWrite, tone, eepromPut, serialDo]
    split <;> rfl
  · rfl

/-- Every cycle sends the same ten commands to the LCD, carrying the two
averages it has just computed. -/
theorem loop_lcd (s : State) (a : Analog) :
    (loop s a).lcd = s.lcd ++
      [LcdOp.setCursor 0 0, LcdOp.print "Temp: ", LcdOp.printFloat (loop s a).averageTemp,
       LcdOp.setCursor 10 0, LcdOp.write 0, LcdOp.print "C",
       LcdOp.setCursor 0 1, LcdOp.print "Luz: ", LcdOp.printFloat (loop s a).averageLight,
       LcdOp.print "%"] := by
  obtain ⟨hT, hL⟩ := loop_averages s a
  obtain ⟨bT, bL, _⟩ := before_check_frame s a
  rw [hT, hL, bT, bL]
  unfold loop
  rw [checkAnomaly_lcd, driveLeds_unfold, lightLed_lcd, lightLed_lcd, lightLed_lcd, lightLed_lcd]
  rfl

/-- A cycle writes no digital pin besides the four light LEDs and the red
LED, and starts or stops a tone on no pin besides the buzzer. -/
theorem loop_other_pins (s : State) (a : Analog) :
    (∀ p, p ∉ ledPins → p ≠ ledRedPin → (loop s a).digital p = s.digital p) ∧
    (∀ p, p ≠ buzzerPin → (loop s a).toneOn p = s.toneOn p) := by
  constructor
  · intro p hp hred
    simp only [ledPins, List.mem_cons, List.mem_singleton, List.not_mem_nil, or_false,
      not_or] at hp
    obtain ⟨h6, h7, h8, h9⟩ := hp
    unfold loop
    rw [checkAnomaly_digital_other _ p hred]
    simp only [driveLeds_unfold, lightLed_digital, lightLed_frame]
    simp [ledPins, h6, h7, h8, h9]
    rfl
  · intro p hp
    obtain ⟨_, _, _, _, _, b6, _, _⟩ := before_check_frame s a
    unfold loop
    by_cases h : (driveLeds (showReadings (pushReadings s a))).averageTemp > 23
    · rw [(checkAnomaly_hot _ h).2.1, b6]
      exact if_neg hp
    · rw [(checkAnomaly_normal _ h).2.1, b6]
      exact if_neg hp

/-- Counterexample for C9: the first cycle after startup with both readings 0
has an average temperature of at most 23, yet it changes something that is
neither filter state nor an actuator output, the contents sent to the LCD. -/
theorem C9_counterexample :
    (loop (startup (fun _ => EepromByte.old 0)) (Analog.mk 0 0)).averageTemp ≤ 23 ∧
    (loop (startup (fun _ => EepromByte.old 0)) (Analog.mk 0 0)).lcd ≠
      (startup (fun _ => EepromByte.old 0)).lcd := by
  refine ⟨by decide!, ?_⟩
  rw [loop_lcd]
  intro h
  have hlen := congrArg List.length h
  simp at hlen

/-- C9, amended: a cycle whose average temperature is at most 23 leaves the
EEPROM contents and the cursor unchanged and prints no line to the serial
port.  What such a cycle changes is the filter state, the actuator outputs
(the four light LEDs, the red LED and the buzzer tone, and no other pin) and
the status display, which receives the cycle's ten LCD commands; pin modes
and the serial configuration stay as they were. -/
theorem C9_normal_cycle_logs_nothing (s : State) (a : Analog)
    (h : (loop s a).averageTemp ≤ 23) :
    (loop s a).eeprom = s.eeprom ∧ (loop s a).eepromIndex = s.eepromIndex ∧
    (loop s a).serial = s.serial ∧ lineCount ((loop s a).serial.drop s.serial.length) = 0 ∧
    (loop s a).outputMode = s.outputMode ∧ (loop s a).serialBaud = s.serialBaud ∧
    (∀ p, p ∉ ledPins → p ≠ ledRedPin → (loop s a).digital p = s.digital p) ∧
    (∀ p, p ≠ buzzerPin → (loop s a).toneOn p = s.toneOn p) ∧
    (loop s a).lcd = s.lcd ++
      [LcdOp.setCursor 0 0, LcdOp.print "Temp: ", LcdOp.printFloat (loop s a).averageTemp,
       LcdOp.setCursor 10 0, LcdOp.write 0, LcdOp.print "C",
       LcdOp.setCursor 0 1, LcdOp.print "Luz: ", LcdOp.printFloat (loop s a).averageLight,
       LcdOp.print "%"] := by
  obtain ⟨_, _, h3, h4, h5, h6, h7⟩ := loop_normal s a (not_lt.mpr h)
  obtain ⟨hpins, htone⟩ := loop_other_pins s a
  refine ⟨h3, h4, h5, ?_, h6, h7, hpins, htone, loop_lcd s a⟩
  rw [h5]
  simp [lineCount]

/-- Witness for C9: the first cycle after startup with both readings 0 has
average temperature `-5/3`; it prints nothing and leaves the cursor at 0. -/
theorem C9_witness :
    (loop (startup (fun _ => EepromByte.old 0)) (Analog.mk 0 0)).averageTemp ≤ 23 ∧
    (loop (startup (fun _ => EepromByte.old 0)) (Analog.mk 0 0)).serial = [] ∧
    (loop (startup (fun _ => EepromByte.old 0)) (Analog.mk 0 0)).eepromIndex = 0 :=
  ⟨by decide!,
   (C9_normal_cycle_logs_nothing (startup (fun _ => EepromByte.old 0)) (Analog.mk 0 0)
      (by decide!)).2.2.1,
   (C9_normal_cycle_logs_nothing (startup (fun _ => EepromByte.old 0)) (Analog.mk 0 0)
      (by decide!)).2.1⟩

end BlueFuture
